import Mathlib

/-!
# cert-manager: renewal scheduling, private-key generation and issuers

A shallow embedding of `pkg/controller/helper.go`, `pkg/util/pki/generate.go`,
`pkg/issuer/venafi/issue.go`, `pkg/issuer/vault/sign.go` and
`pkg/metrics/metrics.go`, together with the properties of the renewal
scheduler, of the PKI generator, of the issuers and of the certificate
metrics that the specification states about them.

Conventions of the embedding:

* `time.Duration` is a Go `int64` count of nanoseconds.  It is embedded as an
  `Int`; every arithmetic step that can leave the 64-bit range is written with
  its wrap-around (`wrap64`) or its saturation (`saturate`) made explicit.
* `time.Time` is an instant on the time line, embedded as an integer count of
  nanoseconds.  Go instants span far more than the range of a `Duration`,
  which is why `Time.Sub` saturates.
* The package variable `now` of `helper.go` (there "to help testing") is an
  explicit argument.
* Calls into the Go standard library that produce key material or encodings
  are fields of `Crypto`; the key generators also return the list of
  generation calls they made, in order.
* The Venafi client, the vcert library and `pki.GenerateTemplate` are fields
  of `Venafi`; `Issue` also returns, in order, the events it records and the
  calls it makes.  Log lines are not part of the embedding.
-/

namespace CertManager

/-! ## `time` -/

/-! A Go `time.Duration` is an `int64` number of nanoseconds; wherever the
embedding has a duration (fields `Duration`, `RenewBefore`,
`RenewBeforeExpiryDuration`, results of `Time.Sub`) its type is `Int`, and
the operations on durations are in the namespace `Duration`. -/

/-- Smallest `time.Duration`, `-1 << 63`. -/
def minDuration : Int := -9223372036854775808

/-- Largest `time.Duration`, `1<<63 - 1`. -/
def maxDuration : Int := 9223372036854775807

/-- Two-complement wrap-around of a mathematical integer into `int64`. -/
def wrap64 (x : Int) : Int :=
  (x + 9223372036854775808) % 18446744073709551616 - 9223372036854775808

/-- Clamp a mathematical integer into the `int64` range, as `Time.Sub` does. -/
def saturate (x : Int) : Int :=
  if x < minDuration then minDuration
  else if maxDuration < x then maxDuration
  else x

/-- The values an `int64` can hold. -/
def InInt64 (x : Int) : Prop := minDuration ≤ x ∧ x ≤ maxDuration

instance (x : Int) : Decidable (InInt64 x) := by
  unfold InInt64; infer_instance

/-- Go `d1 - d2` on `time.Duration` (`int64` subtraction, wrapping). -/
def Duration.sub (d1 d2 : Int) : Int := wrap64 (d1 - d2)

/-- Go `d / n` on `time.Duration`: integer division truncating toward zero. -/
def Duration.div (d : Int) (n : Int) : Int := Int.tdiv d n

def Nanosecond : Int := 1
def Microsecond : Int := 1000 * Nanosecond
def Millisecond : Int := 1000 * Microsecond
def Second : Int := 1000 * Millisecond
def Minute : Int := 60 * Second
def Hour : Int := 60 * Minute

/-- A day as the specification's examples use it: 24 hours. -/
def Day : Int := 24 * Hour

/-- Go `time.Time`, as nanoseconds on the time line. -/
structure Time where
  ns : Int
deriving DecidableEq, Repr

/-- Go `t.Sub(u)` on wall-clock instants (the times of a parsed certificate
carry no monotonic reading): the duration `t - u`, or the maximum (minimum)
duration when the difference exceeds what a `Duration` can store. -/
def Time.Sub (t u : Time) : Int := saturate (t.ns - u.ns)

/-- Go `t.Add(d)`. -/
def Time.Add (t : Time) (d : Int) : Time := ⟨t.ns + d⟩

/-! ## Keys (`crypto`, `crypto/rsa`, `crypto/ecdsa`, `crypto/elliptic`) -/

/-- Go `rsa.PublicKey`. -/
structure RSAPublicKey where
  N : Int
  E : Int
deriving DecidableEq, Repr

/-- Go `rsa.PrivateKey` (the embedded public key, the private exponent and the
prime factors). -/
structure RSAPrivateKey where
  PublicKey : RSAPublicKey
  D : Int
  Primes : List Int
deriving DecidableEq, Repr

/-- The named curves `elliptic.P256()`, `elliptic.P384()`, `elliptic.P521()`. -/
inductive Curve where
  | P256
  | P384
  | P521
deriving DecidableEq, Repr

/-- Go `ecdsa.PublicKey`. -/
structure ECDSAPublicKey where
  Curve : Curve
  X : Int
  Y : Int
deriving DecidableEq, Repr

/-- Go `ecdsa.PrivateKey`. -/
structure ECDSAPrivateKey where
  PublicKey : ECDSAPublicKey
  D : Int
deriving DecidableEq, Repr

/-- Go `crypto.PublicKey` (an empty interface): the dynamic types the code
switches on, and `other` for a value of any other dynamic type, carrying the
type name that `%T` prints. -/
inductive PublicKey where
  | rsa (k : RSAPublicKey)
  | ecdsa (k : ECDSAPublicKey)
  | other (typeName : String)
deriving DecidableEq, Repr

/-- Go `crypto.PrivateKey` / `crypto.Signer` (interfaces): the dynamic types
the code switches on, and `other` for a value of any other dynamic type,
carrying the type name that `%T` prints. -/
inductive PrivateKey where
  | rsa (k : RSAPrivateKey)
  | ecdsa (k : ECDSAPrivateKey)
  | other (typeName : String)
deriving DecidableEq, Repr

/-! ## API types (`pkg/apis/certmanager/v1alpha1`, `crypto/x509`) -/

/-- Go `v1alpha1.KeyAlgorithm`, a string type. -/
abbrev KeyAlgorithm := String

/-- Go `v1alpha1.KeyEncoding`, a string type. -/
abbrev KeyEncoding := String

/-- Modelled from the spec: the constant `v1alpha1.RSAKeyAlgorithm` is declared
in `pkg/apis/certmanager/v1alpha1`, which is not among the source files; the
specification names the algorithm RSA.  The code only relies on it being
different from the empty string and from `ECDSAKeyAlgorithm`. -/
def RSAKeyAlgorithm : KeyAlgorithm := "rsa"

/-- Modelled from the spec: the constant `v1alpha1.ECDSAKeyAlgorithm` is
declared in `pkg/apis/certmanager/v1alpha1`, which is not among the source
files; the specification names the algorithm ECDSA. -/
def ECDSAKeyAlgorithm : KeyAlgorithm := "ecdsa"

/-- Modelled from the spec: the constant `v1alpha1.PKCS1` is declared in
`pkg/apis/certmanager/v1alpha1`, which is not among the source files; the
specification names the encoding PKCS1. -/
def PKCS1 : KeyEncoding := "pkcs1"

/-- Modelled from the spec: the constant `v1alpha1.PKCS8` is declared in
`pkg/apis/certmanager/v1alpha1`, which is not among the source files; the
specification names the encoding PKCS8. -/
def PKCS8 : KeyEncoding := "pkcs8"

/-- The fields of `v1alpha1.CertificateSpec` that the embedded code reads.
`Duration` and `RenewBefore` are pointers in Go (`nil` is `none`). -/
structure CertificateSpec where
  Duration : Option Int
  RenewBefore : Option Int
  KeyAlgorithm : KeyAlgorithm
  KeySize : Int
  KeyEncoding : KeyEncoding
  Organization : List String
deriving DecidableEq, Repr

/-- Go `v1alpha1.Certificate`: the namespaced name and the spec. -/
structure Certificate where
  Namespace : String
  Name : String
  Spec : CertificateSpec
deriving DecidableEq, Repr

/-- The fields of `x509.Certificate` that the embedded code reads. -/
structure X509Certificate where
  NotBefore : Time
  NotAfter : Time
  PublicKey : PublicKey
deriving DecidableEq, Repr

/-- The field of `x509.CertificateRequest` that the embedded code reads. -/
structure X509CertificateRequest where
  PublicKey : PublicKey
deriving DecidableEq, Repr

/-- Go `cmapi.GenericIssuer` (an interface): the two implementations the code
switches on, and any other implementation; each carries the namespace of its
object metadata. -/
inductive GenericIssuer where
  | ClusterIssuer (ns : String)
  | Issuer (ns : String)
  | otherIssuer (ns : String)
deriving DecidableEq, Repr

/-- Go `iss.GetObjectMeta().Namespace`. -/
def GenericIssuer.Namespace : GenericIssuer → String
  | .ClusterIssuer ns => ns
  | .Issuer ns => ns
  | .otherIssuer ns => ns

/-! ## `pkg/controller/helper.go` -/

/-- The fields of `controller.IssuerOptions` that `helper.go` reads. -/
structure IssuerOptions where
  ClusterResourceNamespace : String
  ClusterIssuerAmbientCredentials : Bool
  IssuerAmbientCredentials : Bool
  RenewBeforeExpiryDuration : Int
deriving DecidableEq, Repr

/-- `IssuerOptions.ResourceNamespace` (helper.go, lines 28-34). -/
def ResourceNamespace (o : IssuerOptions) (iss : GenericIssuer) : String :=
  let ns := iss.Namespace
  if ns = "" then o.ClusterResourceNamespace else ns

/-- `IssuerOptions.CanUseAmbientCredentials` (helper.go, lines 36-44). -/
def CanUseAmbientCredentials (o : IssuerOptions) (iss : GenericIssuer) : Bool :=
  match iss with
  | .ClusterIssuer _ => o.ClusterIssuerAmbientCredentials
  | .Issuer _ => o.IssuerAmbientCredentials
  | .otherIssuer _ => false

/-- Line 60 of helper.go: `certDuration := cert.NotAfter.Sub(cert.NotBefore)`. -/
def certDuration (cert : X509Certificate) : Int :=
  cert.NotAfter.Sub cert.NotBefore

/-- Lines 68-71 of helper.go: the selected `renewBefore`, the value of
`crt.Spec.RenewBefore` when that pointer is set and the configured
`RenewBeforeExpiryDuration` otherwise. -/
def selectedRenewBefore (o : IssuerOptions) (crt : Certificate) : Int :=
  match crt.Spec.RenewBefore with
  | some d => d
  | none => o.RenewBeforeExpiryDuration

/-- Lines 76-81 of helper.go: `renewBefore` after the check against the
validity duration of the certificate, the value that line 86 subtracts. -/
def clampedRenewBefore (o : IssuerOptions) (cert : X509Certificate)
    (crt : Certificate) : Int :=
  if selectedRenewBefore o crt > certDuration cert then
    Duration.div (certDuration cert) 3
  else
    selectedRenewBefore o crt

/-- `IssuerOptions.CalculateDurationUntilRenew` (helper.go, lines 55-89), with
the clock `now()` read at line 84 as the argument `now`.  The value returned
does not depend on the two `log.Info` calls, which `CalculateDurationUntilRenewLog`
lists. -/
def CalculateDurationUntilRenew (o : IssuerOptions) (now : Time)
    (cert : X509Certificate) (crt : Certificate) : Int :=
  let renewBefore := clampedRenewBefore o cert crt
  let durationUntilExpiry := cert.NotAfter.Sub now
  let renewIn := Duration.sub durationUntilExpiry renewBefore
  renewIn

/-- The messages `CalculateDurationUntilRenew` logs, in order (lines 61-64 and
76-78 of helper.go). -/
def CalculateDurationUntilRenewLog (o : IssuerOptions)
    (cert : X509Certificate) (crt : Certificate) : List String :=
  (match crt.Spec.Duration with
    | some d =>
      if certDuration cert < d then
        ["requested certificate validity period differs from period given on returned certificate"]
      else []
    | none => [])
  ++
  (if selectedRenewBefore o crt > certDuration cert then
    ["certificate renewal duration was changed to fit inside the received certificate validity duration from issuer."]
  else [])

/-- `IssuerOptions.CertificateNeedsRenew` (helper.go, lines 46-48). -/
def CertificateNeedsRenew (o : IssuerOptions) (now : Time)
    (cert : X509Certificate) (crt : Certificate) : Bool :=
  decide (CalculateDurationUntilRenew o now cert crt ≤ 0)

/-! ## `pkg/util/pki/generate.go` -/

/-- Go `[]byte`. -/
abbrev Bytes := List UInt8

/-- Go `pem.Block`, with the two fields the code sets (`BlockType` is the Go
field `Type`). -/
structure PemBlock where
  BlockType : String
  Bytes : Bytes
deriving DecidableEq, Repr

/-- The standard-library calls of `generate.go` whose results the code only
passes on.  The two generators read `rand.Reader` and may fail. -/
structure Crypto where
  /-- Go `rsa.GenerateKey(rand.Reader, bits)`. -/
  rsaGenerateKey : Int → Except String RSAPrivateKey
  /-- Go `ecdsa.GenerateKey(curve, rand.Reader)`. -/
  ecdsaGenerateKey : Curve → Except String ECDSAPrivateKey
  /-- Go `x509.MarshalPKCS1PrivateKey`. -/
  MarshalPKCS1PrivateKey : RSAPrivateKey → Bytes
  /-- Go `x509.MarshalPKCS8PrivateKey`. -/
  MarshalPKCS8PrivateKey : PrivateKey → Except String Bytes
  /-- Go `x509.MarshalECPrivateKey`. -/
  MarshalECPrivateKey : ECDSAPrivateKey → Except String Bytes
  /-- Go `pem.EncodeToMemory`. -/
  EncodeToMemory : PemBlock → Bytes

/-- A key generation requested from the standard library. -/
inductive GenerateCall where
  | rsaGenerateKey (bits : Int)
  | ecdsaGenerateKey (curve : Curve)
deriving DecidableEq, Repr

/-- The result of a generator: the generation calls made, in order, and the
Go pair `(key, error)` as an `Except`. -/
abbrev Generated (α : Type) := List GenerateCall × Except String α

def MinRSAKeySize : Int := 2048
def MaxRSAKeySize : Int := 8192
def ECCurve256 : Int := 256
def ECCurve384 : Int := 384
def ECCurve521 : Int := 521

/-- `GenerateRSAPrivateKey` (generate.go, lines 78-89). -/
def GenerateRSAPrivateKey (c : Crypto) (keySize : Int) : Generated RSAPrivateKey :=
  if keySize < MinRSAKeySize then
    ([], .error ("weak rsa key size specified: " ++ toString keySize
      ++ ". minimum key size: " ++ toString MinRSAKeySize))
  else if keySize > MaxRSAKeySize then
    ([], .error ("rsa key size specified too big: " ++ toString keySize
      ++ ". maximum key size: " ++ toString MaxRSAKeySize))
  else
    ([.rsaGenerateKey keySize], c.rsaGenerateKey keySize)

/-- `GenerateECPrivateKey` (generate.go, lines 93-108). -/
def GenerateECPrivateKey (c : Crypto) (keySize : Int) : Generated ECDSAPrivateKey :=
  if keySize = ECCurve256 then
    ([.ecdsaGenerateKey .P256], c.ecdsaGenerateKey .P256)
  else if keySize = ECCurve384 then
    ([.ecdsaGenerateKey .P384], c.ecdsaGenerateKey .P384)
  else if keySize = ECCurve521 then
    ([.ecdsaGenerateKey .P521], c.ecdsaGenerateKey .P521)
  else
    ([], .error ("unsupported ecdsa key size specified: " ++ toString keySize))

/-- `GeneratePrivateKeyForCertificate` (generate.go, lines 53-74).  The key of
either generator is returned as a `crypto.Signer`. -/
def GeneratePrivateKeyForCertificate (c : Crypto) (crt : Certificate) :
    Generated PrivateKey :=
  if crt.Spec.KeyAlgorithm = "" ∨ crt.Spec.KeyAlgorithm = RSAKeyAlgorithm then
    let keySize := if crt.Spec.KeySize > 0 then crt.Spec.KeySize else MinRSAKeySize
    let r := GenerateRSAPrivateKey c keySize
    (r.1, r.2.map PrivateKey.rsa)
  else if crt.Spec.KeyAlgorithm = ECDSAKeyAlgorithm then
    let keySize := if crt.Spec.KeySize > 0 then crt.Spec.KeySize else ECCurve256
    let r := GenerateECPrivateKey c keySize
    (r.1, r.2.map PrivateKey.ecdsa)
  else
    ([], .error ("unsupported private key algorithm specified: " ++ crt.Spec.KeyAlgorithm))

/-- `EncodePKCS1PrivateKey` (generate.go, lines 132-136). -/
def EncodePKCS1PrivateKey (c : Crypto) (pk : RSAPrivateKey) : Bytes :=
  let block : PemBlock := ⟨"RSA PRIVATE KEY", c.MarshalPKCS1PrivateKey pk⟩
  c.EncodeToMemory block

/-- `EncodePKCS8PrivateKey` (generate.go, lines 139-147). -/
def EncodePKCS8PrivateKey (c : Crypto) (pk : PrivateKey) : Except String Bytes :=
  match c.MarshalPKCS8PrivateKey pk with
  | .error err => .error err
  | .ok keyBytes =>
    let block : PemBlock := ⟨"PRIVATE KEY", keyBytes⟩
    .ok (c.EncodeToMemory block)

/-- `EncodeECPrivateKey` (generate.go, lines 150-158). -/
def EncodeECPrivateKey (c : Crypto) (pk : ECDSAPrivateKey) : Except String Bytes :=
  match c.MarshalECPrivateKey pk with
  | .error err => .error ("error encoding private key: " ++ err)
  | .ok asnBytes =>
    let block : PemBlock := ⟨"EC PRIVATE KEY", asnBytes⟩
    .ok (c.EncodeToMemory block)

/-- `EncodePrivateKey` (generate.go, lines 113-129). -/
def EncodePrivateKey (c : Crypto) (pk : PrivateKey) (keyEncoding : KeyEncoding) :
    Except String Bytes :=
  if keyEncoding = "" ∨ keyEncoding = PKCS1 then
    match pk with
    | .rsa k => .ok (EncodePKCS1PrivateKey c k)
    | .ecdsa k => EncodeECPrivateKey c k
    | .other typeName =>
      .error ("error encoding private key: unknown key type: " ++ typeName)
  else if keyEncoding = PKCS8 then
    EncodePKCS8PrivateKey c pk
  else
    .error ("error encoding private key: unknown key encoding: " ++ keyEncoding)

/-- `PublicKeyForPrivateKey` (generate.go, lines 162-171). -/
def PublicKeyForPrivateKey (pk : PrivateKey) : Except String PublicKey :=
  match pk with
  | .rsa k => .ok (.rsa k.PublicKey)
  | .ecdsa k => .ok (.ecdsa k.PublicKey)
  | .other typeName => .error ("unknown private key type: " ++ typeName)

/-- `PublicKeyMatchesCertificate` (generate.go, lines 180-203).  The Go pair
`(bool, error)` is a pair whose second component is `none` for a nil error;
`pub.N.Cmp(rsaCheck.N) != 0` on `*big.Int` is inequality of the integers. -/
def PublicKeyMatchesCertificate (check : PublicKey) (crt : X509Certificate) :
    Bool × Option String :=
  match crt.PublicKey with
  | .rsa pub =>
    match check with
    | .rsa rsaCheck =>
      if pub.N ≠ rsaCheck.N then (false, none)
      else (true, none)
    | _ => (false, none)
  | .ecdsa pub =>
    match check with
    | .ecdsa ecdsaCheck =>
      if pub.X ≠ ecdsaCheck.X ∨ pub.Y ≠ ecdsaCheck.Y then (false, none)
      else (true, none)
    | _ => (false, none)
  | .other _ => (false, some "unrecognised Certificate public key type")

/-- `PublicKeyMatchesCSR` (generate.go, lines 212-235), with the same
conventions as `PublicKeyMatchesCertificate`. -/
def PublicKeyMatchesCSR (check : PublicKey) (csr : X509CertificateRequest) :
    Bool × Option String :=
  match csr.PublicKey with
  | .rsa pub =>
    match check with
    | .rsa rsaCheck =>
      if pub.N ≠ rsaCheck.N then (false, none)
      else (true, none)
    | _ => (false, none)
  | .ecdsa pub =>
    match check with
    | .ecdsa ecdsaCheck =>
      if pub.X ≠ ecdsaCheck.X ∨ pub.Y ≠ ecdsaCheck.Y then (false, none)
      else (true, none)
    | _ => (false, none)
  | .other _ => (false, some "unrecognised Certificate public key type")

/-! ## `pkg/issuer/venafi/issue.go`, `pkg/issuer/vault/sign.go` -/

/-- Go `pkix.Name`, with two of its fields. -/
structure PkixName where
  CommonName : String
  Organization : List String
deriving DecidableEq, Repr

/-- The `*x509.Certificate` that `pki.GenerateTemplate` returns: the fields that
`Issue` writes (`Subject.Organization`, `PublicKey`) and the DNS names. -/
structure CertificateTemplate where
  Subject : PkixName
  DNSNames : List String
  PublicKey : Option PublicKey
deriving DecidableEq, Repr

/-- Go `certificate.CSrOriginOption` of the vcert library. -/
inductive CSrOriginOption where
  | LocalGeneratedCSR
  | ServiceGeneratedCSR
  | UserProvidedCSR
deriving DecidableEq, Repr

/-- Go `certificate.Request` of the vcert library: the fields that `Issue` and
`newVRequest` write, the DNS names and the CSR that `GenerateCSR` sets. -/
structure VRequest where
  Subject : PkixName
  DNSNames : List String
  PrivateKey : Option PrivateKey
  CSR : Bytes
  CsrOrigin : CSrOriginOption
  Timeout : Int
  PickupID : String
deriving DecidableEq, Repr

/-- Go `*endpoint.ZoneConfiguration` of the vcert library, as the two methods
`Issue` calls on it.  `UpdateCertificateRequest` mutates the request in Go and
returns the updated request here; `ValidateCertificateRequest` returns the
error (`none` for nil). -/
structure ZoneConfiguration where
  UpdateCertificateRequest : VRequest → VRequest
  ValidateCertificateRequest : VRequest → Option String

/-- Go `*certificate.PEMCollection` of the vcert library. -/
structure PEMCollection where
  Certificate : String
  PrivateKey : String
  Chain : List String
deriving DecidableEq, Repr

/-- The errors of `v.client.RetrieveCertificate` by dynamic type, as the type
assertions of lines 172 and 177 of issue.go tell them apart; each carries the
text of `err.Error()`. -/
inductive RetrieveError where
  | ErrCertificatePending (msg : String)
  | ErrRetrieveCertificateTimeout (msg : String)
  | otherError (msg : String)
deriving DecidableEq, Repr

/-- The receiver `v *Venafi` of `Issue` and the functions outside the source
files that `Issue` calls. -/
structure Venafi where
  /-- Go `pki.GenerateTemplate(crt)`, of `pkg/util/pki`, not among the source
  files. -/
  GenerateTemplate : Certificate → Except String CertificateTemplate
  /-- Go `certificate.NewRequest(cert)` of the vcert library. -/
  NewRequest : CertificateTemplate → VRequest
  /-- Go `vreq.GenerateCSR()` of the vcert library; it sets the CSR on the
  request. -/
  GenerateCSR : VRequest → Except String VRequest
  /-- Go `v.client.ReadZoneConfiguration()`. -/
  ReadZoneConfiguration : Except String ZoneConfiguration
  /-- Go `v.client.RequestCertificate(vreq)`, returning the request ID. -/
  RequestCertificate : VRequest → Except String String
  /-- Go `v.client.RetrieveCertificate(vreq)`. -/
  RetrieveCertificate : VRequest → Except RetrieveError PEMCollection

/-- Go `issuer.IssueResponse`. -/
structure IssueResponse where
  Certificate : Bytes
  PrivateKey : Bytes
  CA : Bytes
deriving DecidableEq, Repr

/-- What `Issue` does that can be observed from outside, in order: the events
given to `v.Recorder`, the key generations requested from the standard
library, and the calls on the Venafi backend `v.client`. -/
inductive IssueEffect where
  | Event (eventtype reason message : String)
  | Generate (call : GenerateCall)
  | ReadZoneConfiguration
  | RequestCertificate (vreq : VRequest)
  | RetrieveCertificate (vreq : VRequest)
deriving DecidableEq, Repr

/-- The calls on the Venafi backend among the effects. -/
def IssueEffect.isBackendCall : IssueEffect → Bool
  | .ReadZoneConfiguration => true
  | .RequestCertificate _ => true
  | .RetrieveCertificate _ => true
  | _ => false

/-- Go `corev1.EventTypeNormal`. -/
def EventTypeNormal : String := "Normal"

/-- Go `corev1.EventTypeWarning`. -/
def EventTypeWarning : String := "Warning"

/-- Go `[]byte(s)`. -/
def stringBytes (s : String) : Bytes := s.toUTF8.toList

/-- The Go pair `(*issuer.IssueResponse, error)`: `none` is nil in either
component. -/
abbrev IssueResult := Option IssueResponse × Option String

/-- `newVRequest` (issue.go, lines 210-215). -/
def newVRequest (v : Venafi) (cert : CertificateTemplate) : VRequest :=
  let req := v.NewRequest cert
  { req with Subject := cert.Subject }

/-- `Venafi.Issue` (issue.go, lines 52-208).  The result is the list of
effects, in order, and the Go pair returned. -/
def Issue (c : Crypto) (v : Venafi) (crt : Certificate) :
    List IssueEffect × IssueResult :=
  let t0 : List IssueEffect :=
    [.Event EventTypeNormal "Issuing" "Requesting new certificate..."]
  let generated := GeneratePrivateKeyForCertificate c crt
  let t1 := t0 ++ generated.1.map IssueEffect.Generate
  match generated.2 with
  | .error err =>
    (t1 ++ [.Event EventTypeWarning "PrivateKeyError"
        ("Error generating certificate private key: " ++ err)],
      none, none)
  | .ok signeeKey =>
    let t2 := t1 ++ [.Event EventTypeNormal "GenerateKey" "Generated new private key"]
    match PublicKeyForPrivateKey signeeKey with
    | .error err => (t2, none, some err)
    | .ok signeePublicKey =>
      match v.GenerateTemplate crt with
      | .error err => (t2, none, some err)
      | .ok tmpl0 =>
        let tmpl1 : CertificateTemplate :=
          if crt.Spec.Organization.length = 0 then
            { tmpl0 with Subject := { tmpl0.Subject with Organization := [] } }
          else tmpl0
        let tmpl : CertificateTemplate := { tmpl1 with PublicKey := some signeePublicKey }
        let t3 := t2 ++ [.ReadZoneConfiguration]
        match v.ReadZoneConfiguration with
        | .error err =>
          (t3 ++ [.Event EventTypeWarning "ReadZone"
              ("Failed to read Venafi zone configuration: " ++ err)],
            none, some err)
        | .ok zoneCfg =>
          let vreq0 := newVRequest v tmpl
          let vreq1 : VRequest := { vreq0 with PrivateKey := some signeeKey }
          let vreq2 := zoneCfg.UpdateCertificateRequest vreq1
          match zoneCfg.ValidateCertificateRequest vreq2 with
          | some err =>
            (t3 ++ [.Event EventTypeWarning "Validate"
                ("Failed to validate certificate against Venafi zone: " ++ err)],
              none, some err)
          | none =>
            let t4 := t3 ++ [.Event EventTypeNormal "Validate"
              "Validated certificate request against Venafi zone policy"]
            match v.GenerateCSR vreq2 with
            | .error err =>
              (t4 ++ [.Event EventTypeWarning "GenerateCSR"
                  ("Failed to generate a CSR for the certificate: " ++ err)],
                none, some err)
            | .ok vreq3 =>
              let vreq4 : VRequest :=
                { vreq3 with CsrOrigin := .UserProvidedCSR, Timeout := Minute * 5 }
              let t5 := t4 ++ [.Event EventTypeNormal "Requesting"
                "Requesting certificate from Venafi server...",
                .RequestCertificate vreq4]
              match v.RequestCertificate vreq4 with
              | .error err =>
                (t5 ++ [.Event EventTypeWarning "Request"
                    ("Failed to request a certificate from Venafi: " ++ err)],
                  none, some err)
              | .ok requestID =>
                let vreq5 : VRequest := { vreq4 with PickupID := requestID }
                let t6 := t5 ++ [.RetrieveCertificate vreq5]
                match v.RetrieveCertificate vreq5 with
                | .error (.ErrCertificatePending err) =>
                  (t6 ++ [.Event EventTypeWarning "Retrieve"
                      ("Failed to retrieve a certificate from Venafi, still pending: " ++ err)],
                    none, some ("Venafi certificate still pending: " ++ err))
                | .error (.ErrRetrieveCertificateTimeout err) =>
                  (t6 ++ [.Event EventTypeWarning "Retrieve"
                      ("Failed to retrieve a certificate from Venafi, timed out: " ++ err)],
                    none, some ("Timed out waiting for certificate: " ++ err))
                | .error (.otherError err) =>
                  (t6 ++ [.Event EventTypeWarning "Retrieve"
                      ("Failed to retrieve a certificate from Venafi: " ++ err)],
                    none, some err)
                | .ok pemCollection =>
                  let t7 := t6 ++ [.Event EventTypeNormal "Retrieve"
                    "Retrieved certificate from Venafi server"]
                  match EncodePrivateKey c signeeKey crt.Spec.KeyEncoding with
                  | .error err => (t7, none, some err)
                  | .ok pk =>
                    let cs := [pemCollection.Certificate] ++ pemCollection.Chain
                    let chain := String.intercalate "\n" cs
                    (t7, some { PrivateKey := pk, Certificate := stringBytes chain, CA := [] },
                      none)

/-- Lines 97-103 of issue.go: the template once `Issue` has emptied the
organization of a Certificate that names none and has set the public key. -/
def issueTemplate (crt : Certificate) (tmpl0 : CertificateTemplate) (pub : PublicKey) :
    CertificateTemplate :=
  let tmpl1 : CertificateTemplate :=
    if crt.Spec.Organization.length = 0 then
      { tmpl0 with Subject := { tmpl0.Subject with Organization := [] } }
    else tmpl0
  { tmpl1 with PublicKey := some pub }

/-- Lines 118-123 of issue.go: the vcert request built from the template, with
the private key set and the defaults of the zone applied; it is the request
that is validated and for which the CSR is generated. -/
def issueRequest (v : Venafi) (zoneCfg : ZoneConfiguration) (tmpl : CertificateTemplate)
    (signeeKey : PrivateKey) : VRequest :=
  let vreq0 := newVRequest v tmpl
  let vreq1 : VRequest := { vreq0 with PrivateKey := some signeeKey }
  zoneCfg.UpdateCertificateRequest vreq1

/-- Lines 147-149 of issue.go: the request handed to `RequestCertificate`. -/
def issueSubmitted (vreq : VRequest) : VRequest :=
  { vreq with CsrOrigin := .UserProvidedCSR, Timeout := Minute * 5 }

/-- Line 162 of issue.go: the request handed to `RetrieveCertificate`. -/
def issuePickup (vreq : VRequest) (requestID : String) : VRequest :=
  { vreq with PickupID := requestID }

/-- The calls on the Venafi backend among a list of effects, in order. -/
def backendCalls (effects : List IssueEffect) : List IssueEffect :=
  effects.filter IssueEffect.isBackendCall

/-- Lines 175, 180 and 185 of issue.go: the error `Issue` returns for an error
of `RetrieveCertificate`. -/
def retrieveErrorText : RetrieveError → String
  | .ErrCertificatePending err => "Venafi certificate still pending: " ++ err
  | .ErrRetrieveCertificateTimeout err => "Timed out waiting for certificate: " ++ err
  | .otherError err => err

/-- Modelled from the spec: the type `v1alpha1.CertificateRequest` is declared
in `pkg/apis/certmanager/v1alpha1`, which is not among the source files.  The
specification describes it as one CSR submission tied to exactly one
Certificate, holding the CSR bytes, the issuer reference and a status with the
issued certificate bytes, the CA bytes and the conditions Ready, Denied and
Failed. -/
structure CertificateRequest where
  Namespace : String
  Name : String
  CertificateName : String
  CSRPEM : Bytes
  IssuerRef : String
  StatusCertificate : Bytes
  StatusCA : Bytes
  Ready : Bool
  Denied : Bool
  Failed : Bool
deriving DecidableEq, Repr

/-- `Vault.Sign` (sign.go, lines 27-29), for a receiver and a context of any
type: neither is read. -/
def Vault.Sign {V Ctx : Type} (_v : V) (_ctx : Ctx) (_cr : CertificateRequest) :
    IssueResult :=
  (none, some "sign not implemented by vault issuer")

/-- How the caller reads the pair returned by `Sign` or `Issue`. -/
inductive SignOutcome where
  | issued
  | permanent
  | transient
deriving DecidableEq, Repr

/-- Modelled from the spec: the contract of `Sign` in section 4.3 and 7 of the
specification (the caller is not among the source files).  A non-nil response
signals success; `(nil, nil)` means permanent, do not retry; `(nil, err)`
means transient, retry. -/
def IssueResult.outcome : IssueResult → SignOutcome
  | (some _, _) => .issued
  | (none, none) => .permanent
  | (none, some _) => .transient

/-! ## The store of CertificateRequests (section 3 and 8 of the specification) -/

/-- Modelled from the spec: the Certificate controller that creates
CertificateRequests is not among the source files.  A request is terminal
once Ready or Failed. -/
def CertificateRequest.terminal (cr : CertificateRequest) : Bool :=
  cr.Ready || cr.Failed

/-- Modelled from the spec: the controllers that own CertificateRequests are
not among the source files.  The non-terminal requests in the store that are
tied to the Certificate `certName` of namespace `ns`, counted. -/
def inFlight (store : List CertificateRequest) (ns certName : String) : Nat :=
  store.countP (fun cr =>
    decide (cr.Namespace = ns ∧ cr.CertificateName = certName) && !cr.terminal)

/-- Modelled from the spec: the controllers that act on CertificateRequests
are not among the source files.  What can happen to the CertificateRequests of
the store: the Certificate controller asks to create one, a controller writes
the status of one, one is deleted. -/
inductive StoreEvent where
  | create (cr : CertificateRequest)
  | updateStatus (ns name : String) (certificate ca : Bytes) (ready denied failed : Bool)
  | delete (ns name : String)
deriving DecidableEq, Repr

/-- Modelled from the spec: the controllers that create and update
CertificateRequests are not among the source files.  Creating a request for a
Certificate that already has a non-terminal request is rejected or deferred
(the store is left as it is); a status write reaches only requests that are
not yet terminal; a delete removes the named request. -/
def storeStep (store : List CertificateRequest) : StoreEvent → List CertificateRequest
  | .create cr =>
    if inFlight store cr.Namespace cr.CertificateName = 0 then store ++ [cr]
    else store
  | .updateStatus ns name certificate ca ready denied failed =>
    store.map (fun cr =>
      if cr.Namespace = ns ∧ cr.Name = name ∧ cr.terminal = false then
        { cr with StatusCertificate := certificate, StatusCA := ca,
                  Ready := ready, Denied := denied, Failed := failed }
      else cr)
  | .delete ns name =>
    store.filter (fun cr => !decide (cr.Namespace = ns ∧ cr.Name = name))

/-- Modelled from the spec: the state of the store reached from the empty
store by a sequence of events, oldest first. -/
def storeAfter (events : List StoreEvent) : List CertificateRequest :=
  events.foldl storeStep []

/-! ## `pkg/metrics/metrics.go` -/

/-- Go `t.Unix()`: the seconds since the Unix epoch, rounded down. -/
def Time.Unix (t : Time) : Int := t.ns / 1000000000

/-- Go `strings.Split(s, "/")`, on the characters of `s`: the pieces between
the slashes, one more than there are slashes. -/
def splitSlash : List Char → List (List Char)
  | [] => [[]]
  | ch :: rest =>
    if ch = '/' then [] :: splitSlash rest
    else
      match splitSlash rest with
      | [] => [[ch]]
      | piece :: pieces => (ch :: piece) :: pieces

/-- Go `cache.SplitMetaNamespaceKey(key)` of client-go: the namespace and the
name of a key; a key without slash is a name with the empty namespace, and
`none` is the error for a key of more than two pieces. -/
def SplitMetaNamespaceKey (key : String) : Option (String × String) :=
  match splitSlash key.data with
  | [name] => some ("", String.mk name)
  | [ns, name] => some (String.mk ns, String.mk name)
  | _ => none

/-- Go `cache.DeletionHandlingMetaNamespaceKeyFunc(crt)` of client-go on a
`*v1alpha1.Certificate`: `namespace/name`, or the name alone when the
namespace is empty.  It has no error for an object with metadata. -/
def DeletionHandlingMetaNamespaceKeyFunc (crt : Certificate) : Except String String :=
  if crt.Namespace.length > 0 then .ok (crt.Namespace ++ "/" ++ crt.Name)
  else .ok crt.Name

/-- The label values of a child of the gauge vector
`CertificateExpiryTimeSeconds`, declared with the labels `name` and
`namespace`. -/
structure ExpiryLabels where
  Name : String
  Namespace : String
deriving DecidableEq, Repr

/-- Go `*prometheus.GaugeVec` with the labels `name` and `namespace`: the value
of each child, `none` where the vector has no child.  A value is the integer
that `float64(expiryTime.Unix())` converts. -/
abbrev GaugeVec := ExpiryLabels → Option Int

/-- Go `vec.With(labels).Set(value)`. -/
def GaugeVec.Set (vec : GaugeVec) (labels : ExpiryLabels) (value : Int) : GaugeVec :=
  fun l => if l = labels then some value else vec l

/-- Go `vec.Delete(labels)`. -/
def GaugeVec.Delete (vec : GaugeVec) (labels : ExpiryLabels) : GaugeVec :=
  fun l => if l = labels then none else vec l

/-- Go `cmlisters.CertificateLister`, as the result of
`List(labels.Everything())`. -/
structure CertificateLister where
  List : Except String (List Certificate)

/-- The package-level variables of `metrics.go` that the embedded functions
read or write: the gauge vector `CertificateExpiryTimeSeconds`, the key set
`registeredCertificates.certificates` (a list without order of its own) and
the package variable `activeCertificates` of line 110. -/
structure MetricsPackage where
  CertificateExpiryTimeSeconds : GaugeVec
  registeredCertificates : List String
  activeCertificates : Option CertificateLister

/-- The package-level variables as the declarations of lines 58-110
initialise them: no gauge, no registered key, a nil `activeCertificates`. -/
def MetricsPackage.initial : MetricsPackage :=
  ⟨fun _ => none, [], none⟩

/-- The field of `Metrics` (lines 112-123) that the embedded methods read or
write. -/
structure Metrics where
  activeCertificates : Option CertificateLister

/-- `New` (metrics.go, lines 125-149), as far as the field
`activeCertificates` goes. -/
def New : Metrics := ⟨none⟩

/-- `updateX509Expiry` (metrics.go, lines 211-225), run under the mutex of
`registeredCertificates`. -/
def updateX509Expiry (crt : Certificate) (cert : X509Certificate) (p : MetricsPackage) :
    MetricsPackage :=
  let expiryTime := cert.NotAfter
  match DeletionHandlingMetaNamespaceKeyFunc crt with
  | .error _ => p
  | .ok key =>
    { p with
      CertificateExpiryTimeSeconds :=
        p.CertificateExpiryTimeSeconds.Set ⟨crt.Name, crt.Namespace⟩ expiryTime.Unix,
      registeredCertificates :=
        if key ∈ p.registeredCertificates then p.registeredCertificates
        else key :: p.registeredCertificates }

/-- `Metrics.SetActiveCertificates` (metrics.go, lines 227-229). -/
def SetActiveCertificates (m : Metrics) (cl : CertificateLister) : Metrics :=
  { m with activeCertificates := some cl }

/-- `cleanUpCertificates` (metrics.go, lines 249-281), run under the mutex of
`registeredCertificates`.  The Go loops range over maps in no fixed order; the
deletions do not depend on the order. -/
def cleanUpCertificates (activeCrts : List Certificate) (p : MetricsPackage) :
    MetricsPackage :=
  let activeMap : List String := activeCrts.filterMap (fun crt =>
    match DeletionHandlingMetaNamespaceKeyFunc crt with
    | .error _ => none
    | .ok key => some key)
  let toCleanUp : List String :=
    p.registeredCertificates.filter (fun key => decide (key ∉ activeMap))
  toCleanUp.foldl (fun q key =>
    match SplitMetaNamespaceKey key with
    | none => q
    | some (ns, name) =>
      { q with
        CertificateExpiryTimeSeconds := q.CertificateExpiryTimeSeconds.Delete ⟨name, ns⟩,
        registeredCertificates := q.registeredCertificates.filter (fun k => decide (k ≠ key)) })
    p

/-- `Metrics.cleanUp` (metrics.go, lines 231-247).  The nil check and the
`List` call of lines 235 and 240 are on the package variable
`activeCertificates`, not on the field of `m`. -/
def cleanUp (_m : Metrics) (p : MetricsPackage) : MetricsPackage :=
  match p.activeCertificates with
  | none => p
  | some lister =>
    match lister.List with
    | .error _ => p
    | .ok activeCrts => cleanUpCertificates activeCrts p

/-- The calls on the metrics of the package. -/
inductive MetricsCall where
  | updateX509Expiry (crt : Certificate) (cert : X509Certificate)
  | SetActiveCertificates (cl : CertificateLister)
  | cleanUp
  | cleanUpCertificates (activeCrts : List Certificate)

/-- One call on a `Metrics` value and the package-level variables. -/
def metricsStep (st : Metrics × MetricsPackage) : MetricsCall → Metrics × MetricsPackage
  | .updateX509Expiry crt cert => (st.1, updateX509Expiry crt cert st.2)
  | .SetActiveCertificates cl => (SetActiveCertificates st.1 cl, st.2)
  | .cleanUp => (st.1, cleanUp st.1 st.2)
  | .cleanUpCertificates activeCrts => (st.1, cleanUpCertificates activeCrts st.2)

/-- The state after a sequence of calls, oldest first, on a new `Metrics` value
and the initial package-level variables. -/
def metricsAfter (calls : List MetricsCall) : Metrics × MetricsPackage :=
  calls.foldl metricsStep (New, MetricsPackage.initial)

/-- A name or namespace without a slash, as every Kubernetes object has. -/
def slashFree (s : String) : Prop := '/' ∉ s.data

instance (s : String) : Decidable (slashFree s) := by
  unfold slashFree; infer_instance

/-- The key that `DeletionHandlingMetaNamespaceKeyFunc` gives an object of
namespace `ns` and name `name`. -/
def namespaceKey (ns name : String) : String :=
  if ns.length > 0 then ns ++ "/" ++ name else name

/-- The body of the second loop of `cleanUpCertificates` (lines 269-280) for
one key. -/
def cleanUpKey (q : MetricsPackage) (key : String) : MetricsPackage :=
  match SplitMetaNamespaceKey key with
  | none => q
  | some (ns, name) =>
    { q with
      CertificateExpiryTimeSeconds := q.CertificateExpiryTimeSeconds.Delete ⟨name, ns⟩,
      registeredCertificates := q.registeredCertificates.filter (fun k => decide (k ≠ key)) }

/-- A call whose Certificate, if it has one, has a namespace and a name
without slash. -/
def MetricsCall.slashFree : MetricsCall → Prop
  | .updateX509Expiry crt _ => CertManager.slashFree crt.Namespace ∧ CertManager.slashFree crt.Name
  | _ => True

instance (call : MetricsCall) : Decidable call.slashFree := by
  cases call <;> unfold MetricsCall.slashFree <;> infer_instance

/-- The registered keys and the gauges correspond one to one: every registered
key is the key of a namespace and a name without slash that have a gauge, and
every gauge is labelled by such a pair whose key is registered. -/
def metricsConsistent (p : MetricsPackage) : Prop :=
  (∀ key ∈ p.registeredCertificates, ∃ ns name : String,
      slashFree ns ∧ slashFree name ∧ key = namespaceKey ns name
        ∧ (p.CertificateExpiryTimeSeconds ⟨name, ns⟩).isSome = true)
    ∧ (∀ labels : ExpiryLabels, (p.CertificateExpiryTimeSeconds labels).isSome = true →
      slashFree labels.Namespace ∧ slashFree labels.Name
        ∧ namespaceKey labels.Namespace labels.Name ∈ p.registeredCertificates)

/-! ## Concrete inputs used in the examples -/

/-- Options whose default renew-before is `d`. -/
def optionsWithDefault (d : Int) : IssuerOptions :=
  ⟨"kube-system", false, false, d⟩

/-- A certificate valid from `notBefore` to `notAfter` (nanoseconds). -/
def certValid (notBefore notAfter : Int) : X509Certificate :=
  ⟨⟨notBefore⟩, ⟨notAfter⟩, .rsa ⟨3233, 17⟩⟩

/-- A Certificate resource with the given `renewBefore` and RSA defaults. -/
def crtRenewBefore (rb : Option Int) : Certificate :=
  ⟨"default", "example", ⟨none, rb, "", 0, "", []⟩⟩

/-- A toy RSA key (`N = 61 * 53`). -/
def toyRSAKey : RSAPrivateKey := ⟨⟨3233, 17⟩, 413, [61, 53]⟩

/-- A standard library whose generators always succeed, with fixed values. -/
def toyCrypto : Crypto where
  rsaGenerateKey := fun _ => .ok toyRSAKey
  ecdsaGenerateKey := fun curve => .ok ⟨⟨curve, 1, 2⟩, 3⟩
  MarshalPKCS1PrivateKey := fun _ => [1]
  MarshalPKCS8PrivateKey := fun _ => .ok [8]
  MarshalECPrivateKey := fun _ => .ok [2]
  EncodeToMemory := fun b => b.Bytes

/-- A Certificate resource with the given key algorithm and key size. -/
def crtKey (alg : KeyAlgorithm) (size : Int) : Certificate :=
  ⟨"default", "example", ⟨none, none, alg, size, "", []⟩⟩

/-- A Certificate resource with the given key algorithm, size and encoding. -/
def crtEncoding (alg : KeyAlgorithm) (size : Int) (enc : KeyEncoding) : Certificate :=
  ⟨"default", "example", ⟨none, none, alg, size, enc, []⟩⟩

/-- A zone that changes nothing and accepts every request. -/
def toyZone : ZoneConfiguration where
  UpdateCertificateRequest := fun r => r
  ValidateCertificateRequest := fun _ => none

/-- A Venafi backend on which every step succeeds and retrieval answers
`retrieved`. -/
def toyVenafi (retrieved : Except RetrieveError PEMCollection) : Venafi where
  GenerateTemplate := fun crt => .ok ⟨⟨crt.Name, crt.Spec.Organization⟩, [], none⟩
  NewRequest := fun t => ⟨t.Subject, t.DNSNames, none, [], .LocalGeneratedCSR, 0, ""⟩
  GenerateCSR := fun r => .ok { r with CSR := [48] }
  ReadZoneConfiguration := .ok toyZone
  RequestCertificate := fun _ => .ok "request-1"
  RetrieveCertificate := fun _ => retrieved

/-- A retrieved certificate with a chain of two. -/
def toyPEMCollection : PEMCollection := ⟨"LEAF", "", ["INTERMEDIATE", "ROOT"]⟩

/-- A non-terminal CertificateRequest of the Certificate `default/example`. -/
def toyRequest (name : String) : CertificateRequest :=
  ⟨"default", name, "example", [], "issuer", [], [], false, false, false⟩

/-- The request that `Issue` hands to `RetrieveCertificate` for an RSA
Certificate of 2048 bits on `toyCrypto` and `toyVenafi`. -/
def toyRetrieveRequest : VRequest :=
  ⟨⟨"example", []⟩, [], some (.rsa toyRSAKey), [48], .UserProvidedCSR, Minute * 5,
    "request-1"⟩

/-- A Certificate resource of the given namespace and name. -/
def crtNamed (ns name : String) : Certificate :=
  ⟨ns, name, ⟨none, none, "", 0, "", []⟩⟩

/-- A lister whose `List` succeeds with no Certificate. -/
def emptyLister : CertificateLister := ⟨.ok []⟩

/-! ## Arithmetic of `int64` durations -/

theorem saturate_of_inInt64 {x : Int} (h : InInt64 x) : saturate x = x := by
  unfold InInt64 minDuration maxDuration at h
  unfold saturate minDuration maxDuration
  split_ifs <;> omega

theorem wrap64_of_inInt64 {x : Int} (h : InInt64 x) : wrap64 x = x := by
  unfold InInt64 minDuration maxDuration at h
  unfold wrap64
  omega

theorem saturate_inInt64 (x : Int) : InInt64 (saturate x) := by
  unfold InInt64 saturate minDuration maxDuration
  split_ifs <;> omega

theorem saturate_mono {x y : Int} (h : x ≤ y) : saturate x ≤ saturate y := by
  unfold saturate minDuration maxDuration
  split_ifs <;> omega

theorem saturate_nonneg {x : Int} (h : 0 ≤ x) : 0 ≤ saturate x := by
  unfold saturate minDuration maxDuration
  split_ifs <;> omega

theorem div_three_of_nonneg {d : Int} (h : 0 ≤ d) :
    0 ≤ Duration.div d 3 ∧ Duration.div d 3 ≤ d := by
  unfold Duration.div
  rw [Int.tdiv_eq_ediv h (by decide)]
  constructor <;> omega

theorem certDuration_nonneg {cert : X509Certificate}
    (h : cert.NotBefore.ns ≤ cert.NotAfter.ns) : 0 ≤ certDuration cert := by
  unfold certDuration Time.Sub
  exact saturate_nonneg (by omega)

theorem selectedRenewBefore_eq_getD (o : IssuerOptions) (crt : Certificate) :
    selectedRenewBefore o crt = crt.Spec.RenewBefore.getD o.RenewBeforeExpiryDuration := by
  unfold selectedRenewBefore
  cases crt.Spec.RenewBefore <;> rfl

/-! ## Renewal scheduler -/

/-- C1: when the selected renewBefore (the spec value when set, otherwise the
configured default) is not greater than `certDuration = notAfter - notBefore`,
`CalculateDurationUntilRenew` returns `(notAfter - now) - renewBefore`: as the
Go expression on durations always, and as the exact integer whenever the
difference `notAfter - now` and the result fit a `Duration`.  In particular
`notBefore = T0`, `notAfter = T0 + 90d`, `renewBefore = 30d`, `now = T0` gives
`60d`. -/
theorem CalculateDurationUntilRenew_renewBefore_within
    (o : IssuerOptions) (now : Time) (cert : X509Certificate) (crt : Certificate)
    (rb : Int)
    (hsel : rb = crt.Spec.RenewBefore.getD o.RenewBeforeExpiryDuration)
    (hle : rb ≤ cert.NotAfter.Sub cert.NotBefore) :
    CalculateDurationUntilRenew o now cert crt
        = Duration.sub (cert.NotAfter.Sub now) rb
      ∧ (InInt64 (cert.NotAfter.ns - now.ns) →
          InInt64 (cert.NotAfter.ns - now.ns - rb) →
          CalculateDurationUntilRenew o now cert crt
            = (cert.NotAfter.ns - now.ns) - rb)
      ∧ (∀ (T0 : Int) (o1 : IssuerOptions) (cert1 : X509Certificate)
          (crt1 : Certificate),
          cert1.NotBefore = ⟨T0⟩ → cert1.NotAfter = ⟨T0 + 90 * Day⟩ →
          crt1.Spec.RenewBefore.getD o1.RenewBeforeExpiryDuration = 30 * Day →
          CalculateDurationUntilRenew o1 ⟨T0⟩ cert1 crt1 = 60 * Day) := by
  have hcore : ∀ (o : IssuerOptions) (now : Time) (cert : X509Certificate)
      (crt : Certificate),
      selectedRenewBefore o crt ≤ certDuration cert →
      CalculateDurationUntilRenew o now cert crt
        = Duration.sub (cert.NotAfter.Sub now) (selectedRenewBefore o crt) := by
    intro o now cert crt h
    have h2 : ¬ (selectedRenewBefore o crt > certDuration cert) := not_lt.mpr h
    simp only [CalculateDurationUntilRenew, clampedRenewBefore, if_neg h2]
  have hrb : rb = selectedRenewBefore o crt := by
    rw [selectedRenewBefore_eq_getD]; exact hsel
  have h1 : CalculateDurationUntilRenew o now cert crt
      = Duration.sub (cert.NotAfter.Sub now) rb := by
    rw [hrb]; exact hcore o now cert crt (by rw [← hrb]; exact hle)
  refine ⟨h1, ?_, ?_⟩
  · intro hr1 hr2
    rw [h1]
    unfold Duration.sub Time.Sub
    rw [saturate_of_inInt64 hr1, wrap64_of_inInt64 hr2]
  · intro T0 o1 cert1 crt1 hnb hna hrb1
    have hsel1 : selectedRenewBefore o1 crt1 = 30 * Day := by
      rw [selectedRenewBefore_eq_getD]; exact hrb1
    have hcd : certDuration cert1 = 90 * Day := by
      unfold certDuration Time.Sub
      rw [hnb, hna]
      have : T0 + 90 * Day - T0 = 90 * Day := by ring
      simp only [this]
      decide
    rw [hcore o1 ⟨T0⟩ cert1 crt1 (by rw [hsel1, hcd]; decide), hsel1]
    unfold Duration.sub Time.Sub
    rw [hna]
    have : T0 + 90 * Day - T0 = 90 * Day := by ring
    simp only [this]
    decide

/-- Witness of C1: the 90-day certificate with a 30-day default renewBefore,
read at its notBefore, satisfies the hypotheses and is due in 60 days. -/
theorem CalculateDurationUntilRenew_renewBefore_within_witness :
    (30 * Day ≤ (certValid 0 (90 * Day)).NotAfter.Sub (certValid 0 (90 * Day)).NotBefore)
      ∧ CalculateDurationUntilRenew (optionsWithDefault (30 * Day)) ⟨0⟩
          (certValid 0 (90 * Day)) (crtRenewBefore none) = 60 * Day :=
  ⟨by decide,
   ((CalculateDurationUntilRenew_renewBefore_within (optionsWithDefault (30 * Day)) ⟨0⟩
      (certValid 0 (90 * Day)) (crtRenewBefore none) (30 * Day) (by decide)
      (by decide)).2.1 (by decide) (by decide)).trans (by decide)⟩

/-- C2: when the selected renewBefore is strictly greater than
`certDuration = notAfter - notBefore`, `CalculateDurationUntilRenew` subtracts
`certDuration / 3` (division truncating toward zero) in its place and returns
`(notAfter - now) - certDuration / 3`: as the Go expression on durations
always, and as the exact integer whenever the differences and the result fit
a `Duration`.  In particular `notBefore = T0`, `notAfter = T0 + 10d`,
`renewBefore = 30d`, `now = T0` gives `10d - 10d/3`, which is 576000 seconds. -/
theorem CalculateDurationUntilRenew_renewBefore_beyond
    (o : IssuerOptions) (now : Time) (cert : X509Certificate) (crt : Certificate)
    (rb : Int)
    (hsel : rb = crt.Spec.RenewBefore.getD o.RenewBeforeExpiryDuration)
    (hgt : rb > cert.NotAfter.Sub cert.NotBefore) :
    clampedRenewBefore o cert crt
        = Duration.div (cert.NotAfter.Sub cert.NotBefore) 3
      ∧ CalculateDurationUntilRenew o now cert crt
        = Duration.sub (cert.NotAfter.Sub now)
            (Duration.div (cert.NotAfter.Sub cert.NotBefore) 3)
      ∧ (InInt64 (cert.NotAfter.ns - cert.NotBefore.ns) →
          InInt64 (cert.NotAfter.ns - now.ns) →
          InInt64 (cert.NotAfter.ns - now.ns
            - Int.tdiv (cert.NotAfter.ns - cert.NotBefore.ns) 3) →
          CalculateDurationUntilRenew o now cert crt
            = (cert.NotAfter.ns - now.ns)
              - Int.tdiv (cert.NotAfter.ns - cert.NotBefore.ns) 3)
      ∧ (∀ (T0 : Int) (o1 : IssuerOptions) (cert1 : X509Certificate)
          (crt1 : Certificate),
          cert1.NotBefore = ⟨T0⟩ → cert1.NotAfter = ⟨T0 + 10 * Day⟩ →
          crt1.Spec.RenewBefore.getD o1.RenewBeforeExpiryDuration = 30 * Day →
          CalculateDurationUntilRenew o1 ⟨T0⟩ cert1 crt1
              = 10 * Day - Int.tdiv (10 * Day) 3
            ∧ CalculateDurationUntilRenew o1 ⟨T0⟩ cert1 crt1 = 576000 * Second) := by
  have hcore : ∀ (o : IssuerOptions) (now : Time) (cert : X509Certificate)
      (crt : Certificate),
      selectedRenewBefore o crt > certDuration cert →
      clampedRenewBefore o cert crt = Duration.div (certDuration cert) 3
      ∧ CalculateDurationUntilRenew o now cert crt
        = Duration.sub (cert.NotAfter.Sub now) (Duration.div (certDuration cert) 3) := by
    intro o now cert crt h
    simp only [CalculateDurationUntilRenew, clampedRenewBefore, if_pos h, and_self]
  have hrb : rb = selectedRenewBefore o crt := by
    rw [selectedRenewBefore_eq_getD]; exact hsel
  have hgt2 : selectedRenewBefore o crt > certDuration cert := by
    rw [← hrb]; exact hgt
  obtain ⟨h0, h1⟩ := hcore o now cert crt hgt2
  refine ⟨h0, h1, ?_, ?_⟩
  · intro hr0 hr1 hr2
    rw [h1]
    unfold Duration.sub Duration.div certDuration Time.Sub
    rw [saturate_of_inInt64 hr0, saturate_of_inInt64 hr1, wrap64_of_inInt64 hr2]
  · intro T0 o1 cert1 crt1 hnb hna hrb1
    have hsel1 : selectedRenewBefore o1 crt1 = 30 * Day := by
      rw [selectedRenewBefore_eq_getD]; exact hrb1
    have hcd : certDuration cert1 = 10 * Day := by
      unfold certDuration Time.Sub
      rw [hnb, hna]
      have : T0 + 10 * Day - T0 = 10 * Day := by ring
      simp only [this]
      decide
    have h2 := (hcore o1 ⟨T0⟩ cert1 crt1 (by rw [hsel1, hcd]; decide)).2
    rw [hcd] at h2
    have h3 : cert1.NotAfter.Sub ⟨T0⟩ = 10 * Day := by
      unfold Time.Sub
      rw [hna]
      have : T0 + 10 * Day - T0 = 10 * Day := by ring
      simp only [this]
      decide
    rw [h3] at h2
    rw [h2]
    exact ⟨by decide, by decide⟩

/-- Witness of C2: a 10-day certificate with a 30-day default renewBefore,
read at its notBefore, satisfies the hypotheses, has its renewBefore replaced
by a third of ten days and is due in 576000 seconds. -/
theorem CalculateDurationUntilRenew_renewBefore_beyond_witness :
    (30 * Day > (certValid 0 (10 * Day)).NotAfter.Sub (certValid 0 (10 * Day)).NotBefore)
      ∧ clampedRenewBefore (optionsWithDefault (30 * Day)) (certValid 0 (10 * Day))
          (crtRenewBefore none) = 288000 * Second
      ∧ CalculateDurationUntilRenew (optionsWithDefault (30 * Day)) ⟨0⟩
          (certValid 0 (10 * Day)) (crtRenewBefore none) = 576000 * Second :=
  ⟨by decide,
   ((CalculateDurationUntilRenew_renewBefore_beyond (optionsWithDefault (30 * Day)) ⟨0⟩
      (certValid 0 (10 * Day)) (crtRenewBefore none) (30 * Day) (by decide)
      (by decide)).1).trans (by decide),
   ((CalculateDurationUntilRenew_renewBefore_beyond (optionsWithDefault (30 * Day)) ⟨0⟩
      (certValid 0 (10 * Day)) (crtRenewBefore none) (30 * Day) (by decide)
      (by decide)).2.2.1 (by decide) (by decide) (by decide)).trans (by decide)⟩

theorem saturate_le_self_of_nonneg {x : Int} (h : 0 ≤ x) : saturate x ≤ x := by
  unfold saturate minDuration maxDuration
  split_ifs <;> omega

theorem clampedRenewBefore_le_maxDuration (o : IssuerOptions) (cert : X509Certificate)
    (crt : Certificate) : clampedRenewBefore o cert crt ≤ maxDuration := by
  have hcd : InInt64 (certDuration cert) := saturate_inInt64 _
  unfold InInt64 minDuration maxDuration at hcd
  unfold clampedRenewBefore
  by_cases h : selectedRenewBefore o crt > certDuration cert
  · rw [if_pos h]
    by_cases hd : 0 ≤ certDuration cert
    · have := (div_three_of_nonneg hd).2
      unfold maxDuration
      omega
    · have hneg : 0 ≤ -(certDuration cert) := by omega
      have h3 : 0 ≤ Int.tdiv (-(certDuration cert)) 3 := Int.tdiv_nonneg hneg (by decide)
      rw [Int.neg_tdiv] at h3
      unfold Duration.div maxDuration
      omega
  · rw [if_neg h]
    unfold maxDuration
    omega

theorem clampedRenewBefore_le_lifetime (o : IssuerOptions) (cert : X509Certificate)
    (crt : Certificate) (hvalid : cert.NotBefore.ns ≤ cert.NotAfter.ns) :
    clampedRenewBefore o cert crt ≤ cert.NotAfter.ns - cert.NotBefore.ns := by
  have hcd : (0 : Int) ≤ certDuration cert := certDuration_nonneg hvalid
  have hsat : certDuration cert ≤ cert.NotAfter.ns - cert.NotBefore.ns := by
    unfold certDuration Time.Sub
    exact saturate_le_self_of_nonneg (by omega)
  have hd1 := (div_three_of_nonneg hcd).2
  unfold clampedRenewBefore
  by_cases h : selectedRenewBefore o crt > certDuration cert
  · rw [if_pos h]; omega
  · rw [if_neg h]; omega

/-- C3, as stated, fails: once the current time is past `notAfter - renewBefore`
the returned duration is negative, with and without the clamping step taking
effect.  At `now = notAfter` a 90-day certificate with a 30-day renewBefore
gives minus 30 days, and a 10-day certificate with a 30-day renewBefore
(clamped to a third of ten days) gives minus 288000 seconds.  Before that
point the result is negative only when the `int64` subtraction wraps around,
as for the 90-day certificate read at its notBefore with the renewBefore
`-9223372036854775807`. -/
theorem CalculateDurationUntilRenew_negative_at_expiry :
    CalculateDurationUntilRenew (optionsWithDefault (30 * Day)) ⟨90 * Day⟩
        (certValid 0 (90 * Day)) (crtRenewBefore none) = -(30 * Day)
      ∧ CalculateDurationUntilRenew (optionsWithDefault (30 * Day)) ⟨90 * Day⟩
        (certValid 0 (90 * Day)) (crtRenewBefore none) < 0
      ∧ CalculateDurationUntilRenew (optionsWithDefault Hour) ⟨10 * Day⟩
        (certValid 0 (10 * Day)) (crtRenewBefore (some (30 * Day))) = -(288000 * Second)
      ∧ CalculateDurationUntilRenew (optionsWithDefault Hour) ⟨10 * Day⟩
        (certValid 0 (10 * Day)) (crtRenewBefore (some (30 * Day))) < 0
      ∧ CalculateDurationUntilRenew (optionsWithDefault Hour) ⟨0⟩
        (certValid 0 (90 * Day)) (crtRenewBefore (some (-9223372036854775807))) < 0 := by
  decide

/-- C3, amended: wherever the subtraction of the clamped renewBefore from
`notAfter - now` does not exceed the largest `Duration`, the duration returned
by `CalculateDurationUntilRenew` is non-negative at every current time
`now ≤ notAfter - renewBefore` (renewBefore after clamping), which for a
certificate with `notBefore ≤ notAfter` includes every `now ≤ notBefore`; and
where `notAfter - now` and the result also fit the range of a `Duration`, the
result is `(notAfter - now) - renewBefore` and is non-negative only for
`now ≤ notAfter - renewBefore`. -/
theorem CalculateDurationUntilRenew_nonneg_until_renewal
    (o : IssuerOptions) (now : Time) (cert : X509Certificate) (crt : Certificate)
    (hfit : cert.NotAfter.Sub now - clampedRenewBefore o cert crt ≤ maxDuration) :
    (now.ns + clampedRenewBefore o cert crt ≤ cert.NotAfter.ns →
        0 ≤ CalculateDurationUntilRenew o now cert crt)
      ∧ (cert.NotBefore.ns ≤ cert.NotAfter.ns → now.ns ≤ cert.NotBefore.ns →
        0 ≤ CalculateDurationUntilRenew o now cert crt)
      ∧ (InInt64 (cert.NotAfter.ns - now.ns) →
        minDuration ≤ cert.NotAfter.ns - now.ns - clampedRenewBefore o cert crt →
        CalculateDurationUntilRenew o now cert crt
            = cert.NotAfter.ns - now.ns - clampedRenewBefore o cert crt
          ∧ (0 ≤ CalculateDurationUntilRenew o now cert crt
              ↔ now.ns + clampedRenewBefore o cert crt ≤ cert.NotAfter.ns)
          ∧ (cert.NotAfter.ns < now.ns + clampedRenewBefore o cert crt →
              CalculateDurationUntilRenew o now cert crt < 0)) := by
  have hmax := clampedRenewBefore_le_maxDuration o cert crt
  have hres : CalculateDurationUntilRenew o now cert crt
      = wrap64 (saturate (cert.NotAfter.ns - now.ns) - clampedRenewBefore o cert crt) := rfl
  have hlife := clampedRenewBefore_le_lifetime o cert crt
  unfold Time.Sub at hfit
  rw [hres]
  generalize clampedRenewBefore o cert crt = rbc at hfit hmax hlife ⊢
  unfold maxDuration at hfit hmax
  have hcore : now.ns + rbc ≤ cert.NotAfter.ns →
      0 ≤ wrap64 (saturate (cert.NotAfter.ns - now.ns) - rbc) := by
    intro h1
    have hge : 0 ≤ saturate (cert.NotAfter.ns - now.ns) - rbc := by
      unfold saturate minDuration maxDuration
      split_ifs <;> omega
    rw [wrap64_of_inInt64 (by unfold InInt64 minDuration maxDuration; omega)]
    exact hge
  refine ⟨hcore, ?_, ?_⟩
  · intro hvalid hnow
    have := hlife hvalid
    exact hcore (by omega)
  · intro hdue hlow
    rw [saturate_of_inInt64 hdue] at hfit ⊢
    unfold minDuration at hlow
    rw [wrap64_of_inInt64 (by unfold InInt64 minDuration maxDuration; omega)]
    refine ⟨rfl, ?_, ?_⟩
    · constructor <;> intro h <;> omega
    · intro h; omega

/-- Witness of C3 (amended): the 90-day certificate with a 30-day renewBefore,
read 30 days after its notBefore, 30 days before the renewal point. -/
theorem CalculateDurationUntilRenew_nonneg_until_renewal_witness :
    (certValid 0 (90 * Day)).NotAfter.Sub ⟨30 * Day⟩
          - clampedRenewBefore (optionsWithDefault (30 * Day)) (certValid 0 (90 * Day))
              (crtRenewBefore none) ≤ maxDuration
      ∧ 0 ≤ CalculateDurationUntilRenew (optionsWithDefault (30 * Day)) ⟨30 * Day⟩
          (certValid 0 (90 * Day)) (crtRenewBefore none) :=
  ⟨by decide,
   (CalculateDurationUntilRenew_nonneg_until_renewal (optionsWithDefault (30 * Day))
      ⟨30 * Day⟩ (certValid 0 (90 * Day)) (crtRenewBefore none) (by decide)).1 (by decide)⟩

/-- C4, as stated, fails on a certificate whose `notAfter` precedes its
`notBefore`: `certDuration` is negative, every renewBefore above it is replaced
by `certDuration / 3`, and that third is greater than `certDuration`. -/
theorem clampedRenewBefore_exceeds_negative_certDuration :
    certDuration (certValid (90 * Day) 0) = -(90 * Day)
      ∧ clampedRenewBefore (optionsWithDefault (30 * Day)) (certValid (90 * Day) 0)
          (crtRenewBefore none) = -(30 * Day)
      ∧ certDuration (certValid (90 * Day) 0)
          < clampedRenewBefore (optionsWithDefault (30 * Day)) (certValid (90 * Day) 0)
              (crtRenewBefore none) := by
  decide

/-- C4, amended: for every certificate with `notBefore ≤ notAfter`, the
renewBefore that `CalculateDurationUntilRenew` subtracts (the value after the
clamping step) never exceeds `certDuration = notAfter - notBefore`. -/
theorem clampedRenewBefore_le_certDuration
    (o : IssuerOptions) (cert : X509Certificate) (crt : Certificate)
    (hvalid : cert.NotBefore.ns ≤ cert.NotAfter.ns) :
    clampedRenewBefore o cert crt ≤ cert.NotAfter.Sub cert.NotBefore
      ∧ ∀ now : Time, CalculateDurationUntilRenew o now cert crt
          = Duration.sub (cert.NotAfter.Sub now) (clampedRenewBefore o cert crt) := by
  refine ⟨?_, fun _ => rfl⟩
  have hcd : 0 ≤ certDuration cert := certDuration_nonneg hvalid
  obtain ⟨_, hd1⟩ := div_three_of_nonneg hcd
  show clampedRenewBefore o cert crt ≤ certDuration cert
  unfold clampedRenewBefore
  by_cases h : selectedRenewBefore o crt > certDuration cert
  · simp only [if_pos h]; exact hd1
  · simp only [if_neg h]; exact not_lt.mp h

/-- Witness of C4 (amended): a 10-day certificate with a 30-day renewBefore. -/
theorem clampedRenewBefore_le_certDuration_witness :
    clampedRenewBefore (optionsWithDefault (30 * Day)) (certValid 0 (10 * Day))
        (crtRenewBefore none)
      ≤ (certValid 0 (10 * Day)).NotAfter.Sub (certValid 0 (10 * Day)).NotBefore :=
  (clampedRenewBefore_le_certDuration (optionsWithDefault (30 * Day))
    (certValid 0 (10 * Day)) (crtRenewBefore none) (by decide)).1

/-- C5: `CertificateNeedsRenew` returns true if and only if
`CalculateDurationUntilRenew` on the same inputs returns a duration less than
or equal to zero; a result of exactly zero counts as due, as it does for the
90-day certificate with a 30-day renewBefore read 60 days after notBefore. -/
theorem CertificateNeedsRenew_iff
    (o : IssuerOptions) (now : Time) (cert : X509Certificate) (crt : Certificate) :
    (CertificateNeedsRenew o now cert crt = true
        ↔ CalculateDurationUntilRenew o now cert crt ≤ 0)
      ∧ (CertificateNeedsRenew o now cert crt = false
        ↔ 0 < CalculateDurationUntilRenew o now cert crt)
      ∧ (CalculateDurationUntilRenew o now cert crt = 0 →
          CertificateNeedsRenew o now cert crt = true)
      ∧ (CalculateDurationUntilRenew (optionsWithDefault (30 * Day)) ⟨60 * Day⟩
            (certValid 0 (90 * Day)) (crtRenewBefore none) = 0
          ∧ CertificateNeedsRenew (optionsWithDefault (30 * Day)) ⟨60 * Day⟩
            (certValid 0 (90 * Day)) (crtRenewBefore none) = true) := by
  refine ⟨?_, ?_, ?_, by decide⟩
  · unfold CertificateNeedsRenew
    exact decide_eq_true_iff
  · unfold CertificateNeedsRenew
    rw [decide_eq_false_iff_not]
    exact not_le
  · intro h
    unfold CertificateNeedsRenew
    rw [h]
    decide

/-! ## Private-key generation and encoding -/

theorem GenerateRSAPrivateKey_weak (c : Crypto) (k : Int) (hk : k < 2048) :
    GenerateRSAPrivateKey c k
      = ([], .error ("weak rsa key size specified: " ++ toString k
          ++ ". minimum key size: 2048")) := by
  have hmin : toString MinRSAKeySize = "2048" := by decide
  have hk2 : k < MinRSAKeySize := hk
  simp only [GenerateRSAPrivateKey, if_pos hk2, hmin]
  rw [String.append_assoc _ ". minimum key size: " "2048"]
  rfl

theorem GenerateRSAPrivateKey_too_big (c : Crypto) (k : Int) (hk1 : 2048 ≤ k)
    (hk : k > 8192) :
    GenerateRSAPrivateKey c k
      = ([], .error ("rsa key size specified too big: " ++ toString k
          ++ ". maximum key size: 8192")) := by
  have hmax : toString MaxRSAKeySize = "8192" := by decide
  have hk2 : ¬ k < MinRSAKeySize := not_lt.mpr hk1
  have hk3 : k > MaxRSAKeySize := hk
  simp only [GenerateRSAPrivateKey, if_neg hk2, if_pos hk3, hmax]
  rw [String.append_assoc _ ". maximum key size: " "8192"]
  rfl

theorem GenerateRSAPrivateKey_in_range (c : Crypto) (k : Int) (hk1 : 2048 ≤ k)
    (hk : k ≤ 8192) :
    GenerateRSAPrivateKey c k = ([.rsaGenerateKey k], c.rsaGenerateKey k) := by
  have hk2 : ¬ k < MinRSAKeySize := not_lt.mpr hk1
  have hk3 : ¬ k > MaxRSAKeySize := not_lt.mpr hk
  simp only [GenerateRSAPrivateKey, if_neg hk2, if_neg hk3]

theorem GenerateECPrivateKey_other (c : Crypto) (k : Int) (h1 : k ≠ 256)
    (h2 : k ≠ 384) (h3 : k ≠ 521) :
    GenerateECPrivateKey c k
      = ([], .error ("unsupported ecdsa key size specified: " ++ toString k)) := by
  have e1 : ¬ k = ECCurve256 := h1
  have e2 : ¬ k = ECCurve384 := h2
  have e3 : ¬ k = ECCurve521 := h3
  simp only [GenerateECPrivateKey, if_neg e1, if_neg e2, if_neg e3]

/-- C6: `GenerateRSAPrivateKey` rejects a key size before any key generation is
attempted exactly when it is below 2048 (the weak-key error) or above 8192
(the too-big error); for every size in [2048, 8192] validation passes and
an RSA key of exactly that many bits is requested.  So 1024 fails as weak,
2048 is accepted and 16384 fails as too big. -/
theorem GenerateRSAPrivateKey_validation (c : Crypto) (keySize : Int) :
    ((GenerateRSAPrivateKey c keySize).1 = [] ↔ (keySize < 2048 ∨ keySize > 8192))
      ∧ (keySize < 2048 → GenerateRSAPrivateKey c keySize
          = ([], .error ("weak rsa key size specified: " ++ toString keySize
              ++ ". minimum key size: 2048")))
      ∧ (keySize > 8192 → GenerateRSAPrivateKey c keySize
          = ([], .error ("rsa key size specified too big: " ++ toString keySize
              ++ ". maximum key size: 8192")))
      ∧ (2048 ≤ keySize → keySize ≤ 8192 → GenerateRSAPrivateKey c keySize
          = ([.rsaGenerateKey keySize], c.rsaGenerateKey keySize))
      ∧ GenerateRSAPrivateKey c 1024
          = ([], .error "weak rsa key size specified: 1024. minimum key size: 2048")
      ∧ GenerateRSAPrivateKey c 2048 = ([.rsaGenerateKey 2048], c.rsaGenerateKey 2048)
      ∧ GenerateRSAPrivateKey c 16384
          = ([], .error "rsa key size specified too big: 16384. maximum key size: 8192") := by
  have hweak := GenerateRSAPrivateKey_weak c
  have hbig := GenerateRSAPrivateKey_too_big c
  have hok := GenerateRSAPrivateKey_in_range c
  refine ⟨?_, hweak keySize, fun h => hbig keySize (by omega) h, hok keySize, ?_,
    hok 2048 (by decide) (by decide), ?_⟩
  · constructor
    · intro h
      by_contra hcon
      have h1 : 2048 ≤ keySize := by omega
      have h2 : keySize ≤ 8192 := by omega
      rw [hok keySize h1 h2] at h
      exact absurd h (by simp)
    · intro h
      by_cases h1 : keySize < 2048
      · rw [hweak keySize h1]
      · rw [hbig keySize (by omega) (by omega)]
  · rw [hweak 1024 (by decide)]; rfl
  · rw [hbig 16384 (by decide) (by decide)]; rfl

/-- C7: `GenerateECPrivateKey` selects curve P-256 for 256, P-384 for 384 and
P-521 for 521, and for every other key size (192 for one) returns no key and
the unsupported-size error without attempting generation. -/
theorem GenerateECPrivateKey_curves (c : Crypto) (keySize : Int) :
    GenerateECPrivateKey c 256 = ([.ecdsaGenerateKey .P256], c.ecdsaGenerateKey .P256)
      ∧ GenerateECPrivateKey c 384 = ([.ecdsaGenerateKey .P384], c.ecdsaGenerateKey .P384)
      ∧ GenerateECPrivateKey c 521 = ([.ecdsaGenerateKey .P521], c.ecdsaGenerateKey .P521)
      ∧ (keySize ≠ 256 → keySize ≠ 384 → keySize ≠ 521 →
          GenerateECPrivateKey c keySize
            = ([], .error ("unsupported ecdsa key size specified: " ++ toString keySize)))
      ∧ GenerateECPrivateKey c 192
          = ([], .error "unsupported ecdsa key size specified: 192") := by
  have hother := GenerateECPrivateKey_other c
  refine ⟨rfl, rfl, rfl, hother keySize, ?_⟩
  rw [hother 192 (by decide) (by decide) (by decide)]; rfl

/-- C8, as stated, fails for a declared key size that is zero or negative:
such a size lies outside [2048, 8192], yet `GeneratePrivateKeyForCertificate`
replaces it by 2048 and requests a key, which a working generator returns. -/
theorem GeneratePrivateKeyForCertificate_nonpositive_size_accepted :
    GeneratePrivateKeyForCertificate toyCrypto (crtKey RSAKeyAlgorithm (-1))
        = ([.rsaGenerateKey 2048], .ok (.rsa toyRSAKey))
      ∧ GeneratePrivateKeyForCertificate toyCrypto (crtKey "" 0)
        = ([.rsaGenerateKey 2048], .ok (.rsa toyRSAKey)) := by
  constructor <;> rfl

/-- C8, amended: for every Certificate whose key algorithm is RSA (or unset)
and whose declared key size is greater than zero and lies outside
[2048, 8192], `GeneratePrivateKeyForCertificate` fails with a validation error
(weak below 2048, too big above 8192), returns no key and requests no
generation. -/
theorem GeneratePrivateKeyForCertificate_rsa_size_rejected
    (c : Crypto) (crt : Certificate)
    (halg : crt.Spec.KeyAlgorithm = "" ∨ crt.Spec.KeyAlgorithm = RSAKeyAlgorithm)
    (hpos : 0 < crt.Spec.KeySize)
    (hout : crt.Spec.KeySize < 2048 ∨ crt.Spec.KeySize > 8192) :
    GeneratePrivateKeyForCertificate c crt
      = ([], .error
          (if crt.Spec.KeySize < 2048 then
            "weak rsa key size specified: " ++ toString crt.Spec.KeySize
              ++ ". minimum key size: 2048"
          else
            "rsa key size specified too big: " ++ toString crt.Spec.KeySize
              ++ ". maximum key size: 8192")) := by
  have hp : crt.Spec.KeySize > 0 := hpos
  simp only [GeneratePrivateKeyForCertificate, if_pos halg, if_pos hp]
  by_cases h : crt.Spec.KeySize < 2048
  · rw [GenerateRSAPrivateKey_weak c _ h, if_pos h]; rfl
  · rw [GenerateRSAPrivateKey_too_big c _ (by omega) (by omega), if_neg h]; rfl

/-- Witness of C8 (amended): an RSA Certificate declaring 1024 bits. -/
theorem GeneratePrivateKeyForCertificate_rsa_size_rejected_witness :
    GeneratePrivateKeyForCertificate toyCrypto (crtKey RSAKeyAlgorithm 1024)
      = ([], .error "weak rsa key size specified: 1024. minimum key size: 2048") :=
  (GeneratePrivateKeyForCertificate_rsa_size_rejected toyCrypto
    (crtKey RSAKeyAlgorithm 1024) (Or.inr rfl) (by decide) (Or.inl (by decide))).trans rfl

/-- C9: `GeneratePrivateKeyForCertificate` dispatches on the key algorithm: the
empty algorithm and RSA go to RSA generation, ECDSA goes to ECDSA generation,
and every other algorithm returns no key and the unsupported-algorithm error
without requesting a generation; whenever it returns a key, that key is RSA
or ECDSA. -/
theorem GeneratePrivateKeyForCertificate_dispatch (c : Crypto) (crt : Certificate) :
    ((crt.Spec.KeyAlgorithm = "" ∨ crt.Spec.KeyAlgorithm = RSAKeyAlgorithm) →
        GeneratePrivateKeyForCertificate c crt
          = ((GenerateRSAPrivateKey c
                (if crt.Spec.KeySize > 0 then crt.Spec.KeySize else 2048)).1,
             (GenerateRSAPrivateKey c
                (if crt.Spec.KeySize > 0 then crt.Spec.KeySize else 2048)).2.map
               PrivateKey.rsa))
      ∧ (crt.Spec.KeyAlgorithm = ECDSAKeyAlgorithm →
        GeneratePrivateKeyForCertificate c crt
          = ((GenerateECPrivateKey c
                (if crt.Spec.KeySize > 0 then crt.Spec.KeySize else 256)).1,
             (GenerateECPrivateKey c
                (if crt.Spec.KeySize > 0 then crt.Spec.KeySize else 256)).2.map
               PrivateKey.ecdsa))
      ∧ (crt.Spec.KeyAlgorithm ≠ "" → crt.Spec.KeyAlgorithm ≠ RSAKeyAlgorithm →
        crt.Spec.KeyAlgorithm ≠ ECDSAKeyAlgorithm →
        GeneratePrivateKeyForCertificate c crt
          = ([], .error ("unsupported private key algorithm specified: "
              ++ crt.Spec.KeyAlgorithm)))
      ∧ (∀ k : PrivateKey, (GeneratePrivateKeyForCertificate c crt).2 = .ok k →
        (∃ r : RSAPrivateKey, k = .rsa r) ∨ (∃ e : ECDSAPrivateKey, k = .ecdsa e)) := by
  refine ⟨?_, ?_, ?_, ?_⟩
  · intro h
    simp only [GeneratePrivateKeyForCertificate, if_pos h, MinRSAKeySize]
  · intro h
    have hn : ¬ (crt.Spec.KeyAlgorithm = "" ∨ crt.Spec.KeyAlgorithm = RSAKeyAlgorithm) := by
      rw [h]; decide
    simp only [GeneratePrivateKeyForCertificate, if_neg hn, if_pos h, ECCurve256]
  · intro h1 h2 h3
    have hn : ¬ (crt.Spec.KeyAlgorithm = "" ∨ crt.Spec.KeyAlgorithm = RSAKeyAlgorithm) := by
      intro h; cases h with
      | inl h => exact h1 h
      | inr h => exact h2 h
    simp only [GeneratePrivateKeyForCertificate, if_neg hn, if_neg h3]
  · intro k hk
    unfold GeneratePrivateKeyForCertificate at hk
    by_cases h : crt.Spec.KeyAlgorithm = "" ∨ crt.Spec.KeyAlgorithm = RSAKeyAlgorithm
    · simp only [if_pos h] at hk
      left
      cases hr : (GenerateRSAPrivateKey c
          (if crt.Spec.KeySize > 0 then crt.Spec.KeySize else MinRSAKeySize)).2 with
      | error e => rw [hr] at hk; simp [Except.map] at hk
      | ok r =>
        rw [hr] at hk
        simp only [Except.map, Except.ok.injEq] at hk
        exact ⟨r, hk.symm⟩
    · simp only [if_neg h] at hk
      by_cases h2 : crt.Spec.KeyAlgorithm = ECDSAKeyAlgorithm
      · simp only [if_pos h2] at hk
        right
        cases hr : (GenerateECPrivateKey c
            (if crt.Spec.KeySize > 0 then crt.Spec.KeySize else ECCurve256)).2 with
        | error e => rw [hr] at hk; simp [Except.map] at hk
        | ok r =>
          rw [hr] at hk
          simp only [Except.map, Except.ok.injEq] at hk
          exact ⟨r, hk.symm⟩
      · simp only [if_neg h2] at hk
        exact absurd hk (by simp)

/-- C10: `EncodePrivateKey` returns an error and no bytes for every key when
the encoding is neither empty, PKCS1 nor PKCS8, and for every key that is
neither an RSA nor an ECDSA private key when the encoding is PKCS1 or
empty. -/
theorem EncodePrivateKey_errors (c : Crypto) (pk : PrivateKey) (keyEncoding : KeyEncoding) :
    (keyEncoding ≠ "" → keyEncoding ≠ PKCS1 → keyEncoding ≠ PKCS8 →
        EncodePrivateKey c pk keyEncoding
          = .error ("error encoding private key: unknown key encoding: " ++ keyEncoding))
      ∧ ((keyEncoding = "" ∨ keyEncoding = PKCS1) →
        (∀ r : RSAPrivateKey, pk ≠ .rsa r) → (∀ e : ECDSAPrivateKey, pk ≠ .ecdsa e) →
        ∃ typeName : String, pk = .other typeName ∧
          EncodePrivateKey c pk keyEncoding
            = .error ("error encoding private key: unknown key type: " ++ typeName))
      ∧ (∀ typeName : String,
          EncodePrivateKey c (.other typeName) ""
              = .error ("error encoding private key: unknown key type: " ++ typeName)
            ∧ EncodePrivateKey c (.other typeName) PKCS1
              = .error ("error encoding private key: unknown key type: " ++ typeName)) := by
  refine ⟨?_, ?_, ?_⟩
  · intro h1 h2 h3
    have hn : ¬ (keyEncoding = "" ∨ keyEncoding = PKCS1) := by
      intro h; cases h with
      | inl h => exact h1 h
      | inr h => exact h2 h
    simp only [EncodePrivateKey, if_neg hn, if_neg h3]
  · intro h hr he
    cases pk with
    | rsa r => exact absurd rfl (hr r)
    | ecdsa e => exact absurd rfl (he e)
    | other t =>
      refine ⟨t, rfl, ?_⟩
      simp only [EncodePrivateKey, if_pos h]
  · intro t
    constructor <;> rfl

/-- C11: for every key, `EncodePrivateKey` produces a single PEM block whose
type is determined by encoding and key type: `RSA PRIVATE KEY` for an RSA key
under PKCS1, `EC PRIVATE KEY` for an ECDSA key under PKCS1 and `PRIVATE KEY`
for any key under PKCS8, around the bytes the standard-library marshaller
returns for the key; the empty encoding yields exactly the output of PKCS1;
and every output is one such block. -/
theorem EncodePrivateKey_pem_block (c : Crypto) (pk : PrivateKey) :
    (∀ r : RSAPrivateKey, EncodePrivateKey c (.rsa r) PKCS1
        = .ok (c.EncodeToMemory ⟨"RSA PRIVATE KEY", c.MarshalPKCS1PrivateKey r⟩))
      ∧ (∀ (e : ECDSAPrivateKey) (b : Bytes), c.MarshalECPrivateKey e = .ok b →
          EncodePrivateKey c (.ecdsa e) PKCS1
            = .ok (c.EncodeToMemory ⟨"EC PRIVATE KEY", b⟩))
      ∧ (∀ b : Bytes, c.MarshalPKCS8PrivateKey pk = .ok b →
          EncodePrivateKey c pk PKCS8 = .ok (c.EncodeToMemory ⟨"PRIVATE KEY", b⟩))
      ∧ EncodePrivateKey c pk "" = EncodePrivateKey c pk PKCS1
      ∧ (∀ (enc : KeyEncoding) (out : Bytes), EncodePrivateKey c pk enc = .ok out →
          ∃ block : PemBlock, out = c.EncodeToMemory block ∧
            ((enc = PKCS8 ∧ block.BlockType = "PRIVATE KEY")
              ∨ ((enc = "" ∨ enc = PKCS1) ∧
                  (((∃ r : RSAPrivateKey, pk = .rsa r)
                      ∧ block.BlockType = "RSA PRIVATE KEY")
                    ∨ ((∃ e : ECDSAPrivateKey, pk = .ecdsa e)
                      ∧ block.BlockType = "EC PRIVATE KEY"))))) := by
  have h1 : (PKCS1 = "" ∨ PKCS1 = PKCS1) := Or.inr rfl
  have h8 : ¬ (PKCS8 = "" ∨ PKCS8 = PKCS1) := by decide
  have h0 : (("" : KeyEncoding) = "" ∨ ("" : KeyEncoding) = PKCS1) := Or.inl rfl
  refine ⟨?_, ?_, ?_, ?_, ?_⟩
  · intro r
    unfold EncodePrivateKey
    rw [if_pos h1]
    rfl
  · intro e b hb
    unfold EncodePrivateKey
    rw [if_pos h1]
    simp only [EncodeECPrivateKey, hb]
  · intro b hb
    unfold EncodePrivateKey
    rw [if_neg h8, if_pos rfl]
    simp only [EncodePKCS8PrivateKey, hb]
  · unfold EncodePrivateKey
    rw [if_pos h1, if_pos h0]
  · intro enc out hout
    unfold EncodePrivateKey at hout
    by_cases henc : enc = "" ∨ enc = PKCS1
    · simp only [if_pos henc] at hout
      cases pk with
      | rsa r =>
        simp only [EncodePKCS1PrivateKey, Except.ok.injEq] at hout
        exact ⟨_, hout.symm, Or.inr ⟨henc, Or.inl ⟨⟨r, rfl⟩, rfl⟩⟩⟩
      | ecdsa e =>
        simp only [EncodeECPrivateKey] at hout
        cases hm : c.MarshalECPrivateKey e with
        | error err => rw [hm] at hout; simp at hout
        | ok b =>
          rw [hm] at hout
          simp only [Except.ok.injEq] at hout
          exact ⟨_, hout.symm, Or.inr ⟨henc, Or.inr ⟨⟨e, rfl⟩, rfl⟩⟩⟩
      | other t => simp at hout
    · simp only [if_neg henc] at hout
      by_cases h8e : enc = PKCS8
      · simp only [if_pos h8e, EncodePKCS8PrivateKey] at hout
        cases hm : c.MarshalPKCS8PrivateKey pk with
        | error err => rw [hm] at hout; simp at hout
        | ok b =>
          rw [hm] at hout
          simp only [Except.ok.injEq] at hout
          exact ⟨_, hout.symm, Or.inl ⟨h8e, rfl⟩⟩
      · simp only [if_neg h8e] at hout
        simp at hout

/-- C12: `PublicKeyMatchesCertificate` returns `(true, nil)` exactly when the
certificate key and the check key are both RSA with equal modulus `N`, or both
ECDSA with equal `X` and equal `Y`; it returns an error exactly when the key of
the certificate is neither RSA nor ECDSA; in every other case it returns
`(false, nil)`.  An RSA key with the modulus of the certificate matches, one
with another modulus does not, and an RSA check key against an ECDSA
certificate gives `(false, nil)`. -/
theorem PublicKeyMatchesCertificate_cases (check : PublicKey) (crt : X509Certificate) :
    (PublicKeyMatchesCertificate check crt = (true, none) ↔
        ((∃ p q : RSAPublicKey, crt.PublicKey = .rsa p ∧ check = .rsa q ∧ p.N = q.N)
          ∨ (∃ p q : ECDSAPublicKey, crt.PublicKey = .ecdsa p ∧ check = .ecdsa q
              ∧ p.X = q.X ∧ p.Y = q.Y)))
      ∧ ((∃ msg : String, (PublicKeyMatchesCertificate check crt).2 = some msg) ↔
        ((∀ p : RSAPublicKey, crt.PublicKey ≠ .rsa p)
          ∧ (∀ p : ECDSAPublicKey, crt.PublicKey ≠ .ecdsa p)))
      ∧ (PublicKeyMatchesCertificate check crt = (true, none)
          ∨ PublicKeyMatchesCertificate check crt = (false, none)
          ∨ PublicKeyMatchesCertificate check crt
              = (false, some "unrecognised Certificate public key type"))
      ∧ PublicKeyMatchesCertificate (.rsa ⟨3233, 65537⟩) (certValid 0 Day) = (true, none)
      ∧ PublicKeyMatchesCertificate (.rsa ⟨3127, 17⟩) (certValid 0 Day) = (false, none)
      ∧ PublicKeyMatchesCertificate (.rsa ⟨3233, 17⟩)
          ⟨⟨0⟩, ⟨Day⟩, .ecdsa ⟨.P256, 1, 2⟩⟩ = (false, none) := by
  refine ⟨?_, ?_, ?_, by decide, by decide, by decide⟩
  · obtain ⟨nb, na, pub⟩ := crt
    cases pub with
    | rsa p =>
      cases check with
      | rsa q =>
        by_cases h : p.N = q.N <;> simp [PublicKeyMatchesCertificate, h]
      | ecdsa q => simp [PublicKeyMatchesCertificate]
      | other t => simp [PublicKeyMatchesCertificate]
    | ecdsa p =>
      cases check with
      | rsa q => simp [PublicKeyMatchesCertificate]
      | ecdsa q =>
        by_cases hx : p.X = q.X <;> by_cases hy : p.Y = q.Y <;>
          simp [PublicKeyMatchesCertificate, hx, hy]
      | other t => simp [PublicKeyMatchesCertificate]
    | other t => simp [PublicKeyMatchesCertificate]
  · obtain ⟨nb, na, pub⟩ := crt
    cases pub with
    | rsa p =>
      cases check with
      | rsa q =>
        by_cases h : p.N = q.N <;> simp [PublicKeyMatchesCertificate, h]
      | ecdsa q => simp [PublicKeyMatchesCertificate]
      | other t => simp [PublicKeyMatchesCertificate]
    | ecdsa p =>
      cases check with
      | rsa q => simp [PublicKeyMatchesCertificate]
      | ecdsa q =>
        by_cases hx : p.X = q.X <;> by_cases hy : p.Y = q.Y <;>
          simp [PublicKeyMatchesCertificate, hx, hy]
      | other t => simp [PublicKeyMatchesCertificate]
    | other t => simp [PublicKeyMatchesCertificate]
  · obtain ⟨nb, na, pub⟩ := crt
    cases pub with
    | rsa p =>
      cases check with
      | rsa q =>
        by_cases h : p.N = q.N <;> simp [PublicKeyMatchesCertificate, h]
      | ecdsa q => simp [PublicKeyMatchesCertificate]
      | other t => simp [PublicKeyMatchesCertificate]
    | ecdsa p =>
      cases check with
      | rsa q => simp [PublicKeyMatchesCertificate]
      | ecdsa q =>
        by_cases hx : p.X = q.X <;> by_cases hy : p.Y = q.Y <;>
          simp [PublicKeyMatchesCertificate, hx, hy]
      | other t => simp [PublicKeyMatchesCertificate]
    | other t => simp [PublicKeyMatchesCertificate]

/-- C13: the documentation of `PublicKeyMatchesCertificate` and of
`PublicKeyMatchesCSR` promises an error when either parameter is of an
unrecognised type, yet for a check key of an unrecognised type against an RSA
or ECDSA key of the certificate or request both return `(false, nil)`, with no
error; so they do for an `ed25519.PublicKey` check key against an RSA key. -/
theorem PublicKeyMatches_unrecognised_check_no_error :
    (∀ (t : String) (crt : X509Certificate),
        ((∃ p : RSAPublicKey, crt.PublicKey = .rsa p)
          ∨ (∃ p : ECDSAPublicKey, crt.PublicKey = .ecdsa p)) →
        PublicKeyMatchesCertificate (.other t) crt = (false, none))
      ∧ (∀ (t : String) (csr : X509CertificateRequest),
        ((∃ p : RSAPublicKey, csr.PublicKey = .rsa p)
          ∨ (∃ p : ECDSAPublicKey, csr.PublicKey = .ecdsa p)) →
        PublicKeyMatchesCSR (.other t) csr = (false, none))
      ∧ PublicKeyMatchesCertificate (.other "ed25519.PublicKey") (certValid 0 Day)
          = (false, none)
      ∧ PublicKeyMatchesCSR (.other "ed25519.PublicKey") ⟨.rsa ⟨3233, 17⟩⟩
          = (false, none) := by
  refine ⟨?_, ?_, by decide, by decide⟩
  · intro t crt h
    obtain ⟨nb, na, pub⟩ := crt
    rcases h with ⟨p, hp⟩ | ⟨p, hp⟩
    · simp only at hp; subst hp; rfl
    · simp only at hp; subst hp; rfl
  · intro t csr h
    obtain ⟨pub⟩ := csr
    rcases h with ⟨p, hp⟩ | ⟨p, hp⟩
    · simp only at hp; subst hp; rfl
    · simp only at hp; subst hp; rfl

/-- C14: for every check key, certificate and CSR whose `PublicKey` fields hold
the same key, `PublicKeyMatchesCSR` returns the same boolean and the same
error or absence of error as `PublicKeyMatchesCertificate`. -/
theorem PublicKeyMatchesCSR_eq_PublicKeyMatchesCertificate
    (check : PublicKey) (crt : X509Certificate) (csr : X509CertificateRequest)
    (hsame : csr.PublicKey = crt.PublicKey) :
    PublicKeyMatchesCSR check csr = PublicKeyMatchesCertificate check crt
      ∧ (PublicKeyMatchesCSR check csr).1 = (PublicKeyMatchesCertificate check crt).1
      ∧ ((PublicKeyMatchesCSR check csr).2 = none
          ↔ (PublicKeyMatchesCertificate check crt).2 = none) := by
  have h : PublicKeyMatchesCSR check csr = PublicKeyMatchesCertificate check crt := by
    unfold PublicKeyMatchesCSR PublicKeyMatchesCertificate
    rw [hsame]
  exact ⟨h, by rw [h], by rw [h]⟩

/-- Witness of C14: an ECDSA check key against a certificate and a request
holding the same ECDSA key with another `Y`. -/
theorem PublicKeyMatchesCSR_eq_PublicKeyMatchesCertificate_witness :
    PublicKeyMatchesCSR (.ecdsa ⟨.P256, 1, 2⟩) ⟨.ecdsa ⟨.P256, 1, 3⟩⟩
      = PublicKeyMatchesCertificate (.ecdsa ⟨.P256, 1, 2⟩)
          ⟨⟨0⟩, ⟨Day⟩, .ecdsa ⟨.P256, 1, 3⟩⟩ :=
  (PublicKeyMatchesCSR_eq_PublicKeyMatchesCertificate (.ecdsa ⟨.P256, 1, 2⟩)
    ⟨⟨0⟩, ⟨Day⟩, .ecdsa ⟨.P256, 1, 3⟩⟩ ⟨.ecdsa ⟨.P256, 1, 3⟩⟩ rfl).1

/-- C15: for every RSA or ECDSA private key, `PublicKeyForPrivateKey` succeeds
with the public half of the key, and the public key it returns matches every
certificate and every CSR whose `PublicKey` is that key:
`PublicKeyMatchesCertificate` and `PublicKeyMatchesCSR` return `(true, nil)`;
for a private key of any other type it returns an error and no key. -/
theorem PublicKeyForPrivateKey_matches (pk : PrivateKey) :
    (∀ r : RSAPrivateKey, pk = .rsa r →
        PublicKeyForPrivateKey pk = .ok (.rsa r.PublicKey))
      ∧ (∀ e : ECDSAPrivateKey, pk = .ecdsa e →
        PublicKeyForPrivateKey pk = .ok (.ecdsa e.PublicKey))
      ∧ (∀ pub : PublicKey, PublicKeyForPrivateKey pk = .ok pub →
        (∀ crt : X509Certificate, crt.PublicKey = pub →
            PublicKeyMatchesCertificate pub crt = (true, none))
          ∧ (∀ csr : X509CertificateRequest, csr.PublicKey = pub →
            PublicKeyMatchesCSR pub csr = (true, none)))
      ∧ (∀ t : String, pk = .other t →
        PublicKeyForPrivateKey pk = .error ("unknown private key type: " ++ t)) := by
  refine ⟨?_, ?_, ?_, ?_⟩
  · intro r h; subst h; rfl
  · intro e h; subst h; rfl
  · intro pub hpub
    cases pk with
    | rsa r =>
      simp only [PublicKeyForPrivateKey, Except.ok.injEq] at hpub
      subst hpub
      constructor
      · intro crt hcrt
        simp [PublicKeyMatchesCertificate, hcrt]
      · intro csr hcsr
        simp [PublicKeyMatchesCSR, hcsr]
    | ecdsa e =>
      simp only [PublicKeyForPrivateKey, Except.ok.injEq] at hpub
      subst hpub
      constructor
      · intro crt hcrt
        simp [PublicKeyMatchesCertificate, hcrt]
      · intro csr hcsr
        simp [PublicKeyMatchesCSR, hcsr]
    | other t => simp [PublicKeyForPrivateKey] at hpub
  · intro t h; subst h; rfl

/-! ## Issuers -/

/-- C16: for every Certificate for which private-key generation fails, Venafi
`Issue` returns `(nil, nil)`, the result that is not retried, and does so
before any call on the Venafi backend: its effects are the Issuing event, the
key generations requested and the PrivateKeyError event, and neither the zone
is read nor a certificate requested or retrieved. -/
theorem Issue_key_generation_failure
    (c : Crypto) (v : Venafi) (crt : Certificate) (err : String)
    (hfail : (GeneratePrivateKeyForCertificate c crt).2 = .error err) :
    (Issue c v crt).2 = (none, none)
      ∧ IssueResult.outcome (Issue c v crt).2 = .permanent
      ∧ (Issue c v crt).1
        = [IssueEffect.Event "Normal" "Issuing" "Requesting new certificate..."]
          ++ (GeneratePrivateKeyForCertificate c crt).1.map IssueEffect.Generate
          ++ [IssueEffect.Event "Warning" "PrivateKeyError"
              ("Error generating certificate private key: " ++ err)]
      ∧ (∀ e ∈ (Issue c v crt).1, e.isBackendCall = false) := by
  have h : Issue c v crt
      = ([IssueEffect.Event "Normal" "Issuing" "Requesting new certificate..."]
          ++ (GeneratePrivateKeyForCertificate c crt).1.map IssueEffect.Generate
          ++ [IssueEffect.Event "Warning" "PrivateKeyError"
              ("Error generating certificate private key: " ++ err)],
        none, none) := by
    unfold Issue
    simp only [hfail]
    rfl
  rw [h]
  refine ⟨rfl, rfl, rfl, ?_⟩
  intro e he
  simp only [List.mem_append, List.mem_singleton, List.mem_map] at he
  rcases he with (he | ⟨g, _, he⟩) | he <;> subst he <;> rfl

/-- Witness of C16: a Certificate with the unsupported key algorithm `dsa`, and
an RSA Certificate of 1024 bits, on a backend where every step would
succeed. -/
theorem Issue_key_generation_failure_witness :
    (GeneratePrivateKeyForCertificate toyCrypto (crtKey "dsa" 2048)).2
        = .error "unsupported private key algorithm specified: dsa"
      ∧ (Issue toyCrypto (toyVenafi (.ok toyPEMCollection)) (crtKey "dsa" 2048)).2
        = (none, none)
      ∧ (Issue toyCrypto (toyVenafi (.ok toyPEMCollection)) (crtKey "dsa" 2048)).1
        = [IssueEffect.Event "Normal" "Issuing" "Requesting new certificate...",
           IssueEffect.Event "Warning" "PrivateKeyError"
            "Error generating certificate private key: unsupported private key algorithm specified: dsa"]
      ∧ (Issue toyCrypto (toyVenafi (.ok toyPEMCollection))
          (crtKey RSAKeyAlgorithm 1024)).2 = (none, none) :=
  ⟨rfl,
   (Issue_key_generation_failure toyCrypto (toyVenafi (.ok toyPEMCollection))
      (crtKey "dsa" 2048) "unsupported private key algorithm specified: dsa" rfl).1,
   ((Issue_key_generation_failure toyCrypto (toyVenafi (.ok toyPEMCollection))
      (crtKey "dsa" 2048) "unsupported private key algorithm specified: dsa" rfl).2.2.1).trans
      rfl,
   (Issue_key_generation_failure toyCrypto (toyVenafi (.ok toyPEMCollection))
      (crtKey RSAKeyAlgorithm 1024)
      "weak rsa key size specified: 1024. minimum key size: 2048" rfl).1⟩

/-- C19: for every context and CertificateRequest, `Sign` of the Vault issuer
returns a nil response together with the error `sign not implemented by vault
issuer`; it never returns a response and never `(nil, nil)`, so under the
contract of `Sign` every attempt is reported as a transient failure. -/
theorem Vault_Sign_not_implemented {V Ctx : Type} (v : V) (ctx : Ctx)
    (cr : CertificateRequest) :
    Vault.Sign v ctx cr = (none, some "sign not implemented by vault issuer")
      ∧ (Vault.Sign v ctx cr).1 = none
      ∧ Vault.Sign v ctx cr ≠ (none, none)
      ∧ IssueResult.outcome (Vault.Sign v ctx cr) = .transient := by
  refine ⟨rfl, rfl, ?_, rfl⟩
  unfold Vault.Sign
  simp

theorem EncodePrivateKey_unknown_encoding (c : Crypto) (pk : PrivateKey)
    (keyEncoding : KeyEncoding) (h1 : keyEncoding ≠ "") (h2 : keyEncoding ≠ PKCS1)
    (h3 : keyEncoding ≠ PKCS8) :
    EncodePrivateKey c pk keyEncoding
      = .error ("error encoding private key: unknown key encoding: " ++ keyEncoding) := by
  have hn : ¬ (keyEncoding = "" ∨ keyEncoding = PKCS1) := by
    intro h; cases h with
    | inl h => exact h1 h
    | inr h => exact h2 h
  unfold EncodePrivateKey
  rw [if_neg hn, if_neg h3]

/-- C17: for a Certificate whose key encoding is unsupported, Venafi `Issue`
does not return `(nil, nil)` once a key has been generated: whatever the
backend does, it returns no response together with an error, which is the
result that is retried.  With the encoding `der` on a backend where every step
succeeds, the certificate is requested and retrieved (three calls on the
backend) and the unknown-encoding error is returned after that. -/
theorem Issue_unsupported_encoding_returns_error :
    (∀ (c : Crypto) (v : Venafi) (crt : Certificate) (k : PrivateKey),
        crt.Spec.KeyEncoding ≠ "" → crt.Spec.KeyEncoding ≠ PKCS1 →
        crt.Spec.KeyEncoding ≠ PKCS8 →
        (GeneratePrivateKeyForCertificate c crt).2 = .ok k →
        ∃ e : String, (Issue c v crt).2 = (none, some e))
      ∧ (Issue toyCrypto (toyVenafi (.ok toyPEMCollection))
          (crtEncoding RSAKeyAlgorithm 2048 "der")).2
        = (none, some "error encoding private key: unknown key encoding: der")
      ∧ IssueResult.outcome (Issue toyCrypto (toyVenafi (.ok toyPEMCollection))
          (crtEncoding RSAKeyAlgorithm 2048 "der")).2 = .transient
      ∧ ((Issue toyCrypto (toyVenafi (.ok toyPEMCollection))
          (crtEncoding RSAKeyAlgorithm 2048 "der")).1.filter
            IssueEffect.isBackendCall).length = 3 := by
  refine ⟨?_, rfl, rfl, rfl⟩
  intro c v crt k h1 h2 h3 hk
  have henc := EncodePrivateKey_unknown_encoding c k crt.Spec.KeyEncoding h1 h2 h3
  unfold Issue
  simp only [hk, henc]
  repeat' split
  all_goals exact ⟨_, rfl⟩

/-- C18: whenever the retrieval call that `Issue` makes on the Venafi backend
reports that the certificate is still pending, or that waiting for it timed
out, `Issue` returns no response together with a non-nil error (the pending or
the timed-out message around the text of the backend error): a transient
failure, never `(nil, nil)` and never a response. -/
theorem Issue_retrieve_pending_or_timeout
    (c : Crypto) (v : Venafi) (crt : Certificate) (vreq : VRequest) (msg : String)
    (hcall : IssueEffect.RetrieveCertificate vreq ∈ (Issue c v crt).1)
    (hanswer : v.RetrieveCertificate vreq = .error (.ErrCertificatePending msg)
      ∨ v.RetrieveCertificate vreq = .error (.ErrRetrieveCertificateTimeout msg)) :
    ((v.RetrieveCertificate vreq = .error (.ErrCertificatePending msg) →
        (Issue c v crt).2 = (none, some ("Venafi certificate still pending: " ++ msg)))
      ∧ (v.RetrieveCertificate vreq = .error (.ErrRetrieveCertificateTimeout msg) →
        (Issue c v crt).2 = (none, some ("Timed out waiting for certificate: " ++ msg))))
      ∧ (∃ e : String, (Issue c v crt).2 = (none, some e))
      ∧ IssueResult.outcome (Issue c v crt).2 = .transient := by
  have key : (v.RetrieveCertificate vreq = .error (.ErrCertificatePending msg) →
        (Issue c v crt).2 = (none, some ("Venafi certificate still pending: " ++ msg)))
      ∧ (v.RetrieveCertificate vreq = .error (.ErrRetrieveCertificateTimeout msg) →
        (Issue c v crt).2 = (none, some ("Timed out waiting for certificate: " ++ msg))) := by
    revert hcall
    unfold Issue
    simp only []
    repeat' split
    all_goals intro hcall
    all_goals simp [EventTypeNormal, EventTypeWarning] at hcall
    all_goals subst hcall
    all_goals simp_all
  refine ⟨key, ?_, ?_⟩
  · rcases hanswer with h | h
    · exact ⟨_, key.1 h⟩
    · exact ⟨_, key.2 h⟩
  · rcases hanswer with h | h
    · rw [key.1 h]; rfl
    · rw [key.2 h]; rfl

/-- Witness of C18: a backend whose retrieval answers that issuance is
pending, asked for an RSA Certificate of 2048 bits. -/
theorem Issue_retrieve_pending_or_timeout_witness :
    IssueEffect.RetrieveCertificate toyRetrieveRequest
        ∈ (Issue toyCrypto (toyVenafi (.error (.ErrCertificatePending "Issuance is pending")))
            (crtKey RSAKeyAlgorithm 2048)).1
      ∧ (Issue toyCrypto (toyVenafi (.error (.ErrCertificatePending "Issuance is pending")))
          (crtKey RSAKeyAlgorithm 2048)).2
        = (none, some "Venafi certificate still pending: Issuance is pending") :=
  ⟨by decide,
   ((Issue_retrieve_pending_or_timeout toyCrypto
      (toyVenafi (.error (.ErrCertificatePending "Issuance is pending")))
      (crtKey RSAKeyAlgorithm 2048) toyRetrieveRequest "Issuance is pending"
      (by decide) (Or.inl rfl)).1.1 rfl).trans rfl⟩

/-! ## At most one CertificateRequest in flight -/

theorem inFlight_storeStep_le_one (store : List CertificateRequest) (ev : StoreEvent)
    (hinv : ∀ ns certName : String, inFlight store ns certName ≤ 1) :
    ∀ ns certName : String, inFlight (storeStep store ev) ns certName ≤ 1 := by
  intro ns certName
  cases ev with
  | create cr =>
    simp only [storeStep]
    by_cases hg : inFlight store cr.Namespace cr.CertificateName = 0
    · rw [if_pos hg]
      by_cases hp : cr.Namespace = ns ∧ cr.CertificateName = certName
      · obtain ⟨h1, h2⟩ := hp
        subst h1 h2
        unfold inFlight at hg ⊢
        rw [List.countP_append, hg, List.countP_singleton]
        split <;> omega
      · have hstep : inFlight (store ++ [cr]) ns certName = inFlight store ns certName := by
          unfold inFlight
          rw [List.countP_append, List.countP_singleton]
          simp [hp]
        rw [hstep]
        exact hinv ns certName
    · rw [if_neg hg]
      exact hinv ns certName
  | updateStatus ns2 name certificate ca ready denied failed =>
    simp only [storeStep]
    unfold inFlight
    rw [List.countP_map]
    refine le_trans (List.countP_mono_left ?_) (hinv ns certName)
    intro x _ hx
    simp only [Function.comp] at hx
    split at hx
    · rename_i hcond
      simp only [Bool.and_eq_true, decide_eq_true_eq] at hx ⊢
      exact ⟨hx.1, by simp [hcond.2.2]⟩
    · exact hx
  | delete ns2 name =>
    simp only [storeStep]
    unfold inFlight
    exact le_trans (List.Sublist.countP_le _ (List.filter_sublist _)) (hinv ns certName)

theorem inFlight_foldl_le_one (events : List StoreEvent) :
    ∀ store : List CertificateRequest,
      (∀ ns certName : String, inFlight store ns certName ≤ 1) →
      ∀ ns certName : String, inFlight (events.foldl storeStep store) ns certName ≤ 1 := by
  induction events with
  | nil => intro store h; exact h
  | cons ev rest ih =>
    intro store h
    exact ih (storeStep store ev) (inFlight_storeStep_le_one store ev h)

/-- C20: in every state of the store reached from the empty store by creations,
status writes and deletions, a Certificate has at most one non-terminal
CertificateRequest; asking to create a second request for a Certificate that
has a non-terminal one leaves the store as it is, and the creation succeeds
once the first request has become terminal. -/
theorem at_most_one_request_in_flight (events : List StoreEvent) (ns certName : String) :
    inFlight (storeAfter events) ns certName ≤ 1
      ∧ (∀ cr : CertificateRequest,
          inFlight (storeAfter events) cr.Namespace cr.CertificateName ≠ 0 →
          storeAfter (events ++ [.create cr]) = storeAfter events)
      ∧ storeAfter [.create (toyRequest "first"), .create (toyRequest "second")]
          = [toyRequest "first"]
      ∧ inFlight (storeAfter [.create (toyRequest "first"),
            .updateStatus "default" "first" [67] [] true false false,
            .create (toyRequest "second")]) "default" "example" = 1 := by
  refine ⟨?_, ?_, by decide, by decide⟩
  · exact inFlight_foldl_le_one events [] (fun _ _ => Nat.zero_le 1) ns certName
  · intro cr h
    unfold storeAfter at h ⊢
    rw [List.foldl_append]
    simp only [List.foldl_cons, List.foldl_nil, storeStep]
    rw [if_neg h]

/-! ## Renewal scheduler over time, and issuer options -/

/-- C21, as stated, fails for a renewBefore of any sign: with a renewBefore so
far below zero that the `int64` subtraction wraps around, a certificate read
at its notBefore gets the smallest `Duration`, a negative result, and is
reported as needing renewal. -/
theorem CalculateDurationUntilRenew_negative_by_wraparound :
    CalculateDurationUntilRenew (optionsWithDefault Hour) ⟨0⟩ (certValid 0 1)
        (crtRenewBefore (some (-9223372036854775807))) = minDuration
      ∧ CalculateDurationUntilRenew (optionsWithDefault Hour) ⟨0⟩ (certValid 0 1)
        (crtRenewBefore (some (-9223372036854775807))) < 0
      ∧ CertificateNeedsRenew (optionsWithDefault Hour) ⟨0⟩ (certValid 0 1)
        (crtRenewBefore (some (-9223372036854775807))) = true := by
  decide

/-- C21, amended: for every certificate with `notBefore ≤ notAfter`, every
current time `now ≤ notBefore` and every selected renewBefore for which
`(notAfter - now) - renewBefore` does not exceed the largest `Duration` (every
renewBefore that is not negative, and every negative one down to that bound),
`CalculateDurationUntilRenew` returns a non-negative duration, so the
certificate is reported as needing renewal only if the result is exactly
zero. -/
theorem CalculateDurationUntilRenew_fresh_certificate
    (o : IssuerOptions) (now : Time) (cert : X509Certificate) (crt : Certificate)
    (rb : Int)
    (hsel : rb = crt.Spec.RenewBefore.getD o.RenewBeforeExpiryDuration)
    (hvalid : cert.NotBefore.ns ≤ cert.NotAfter.ns)
    (hnow : now.ns ≤ cert.NotBefore.ns)
    (hrange : cert.NotAfter.Sub now - rb ≤ maxDuration) :
    0 ≤ CalculateDurationUntilRenew o now cert crt
      ∧ (CertificateNeedsRenew o now cert crt = true
          ↔ CalculateDurationUntilRenew o now cert crt = 0)
      ∧ (0 ≤ rb → 0 ≤ CalculateDurationUntilRenew o now cert crt) := by
  have hrb : rb = selectedRenewBefore o crt := by
    rw [selectedRenewBefore_eq_getD]; exact hsel
  rw [hrb] at hrange
  have hcd : (0 : Int) ≤ certDuration cert := certDuration_nonneg hvalid
  have hmono : (certDuration cert : Int) ≤ cert.NotAfter.Sub now := by
    unfold certDuration Time.Sub
    exact saturate_mono (by omega)
  have hdue : InInt64 (cert.NotAfter.Sub now) := saturate_inInt64 _
  obtain ⟨hd0, hd1⟩ := div_three_of_nonneg hcd
  unfold InInt64 minDuration maxDuration at hdue
  unfold maxDuration at hrange
  have hnonneg : 0 ≤ CalculateDurationUntilRenew o now cert crt := by
    unfold CalculateDurationUntilRenew clampedRenewBefore
    by_cases h : selectedRenewBefore o crt > certDuration cert
    · simp only [if_pos h]
      unfold Duration.sub
      rw [wrap64_of_inInt64 (by unfold InInt64 minDuration maxDuration; omega)]
      omega
    · simp only [if_neg h]
      unfold Duration.sub
      rw [wrap64_of_inInt64 (by unfold InInt64 minDuration maxDuration; omega)]
      omega
  refine ⟨hnonneg, ?_, fun _ => hnonneg⟩
  unfold CertificateNeedsRenew
  rw [decide_eq_true_iff]
  constructor
  · intro h; omega
  · intro h; omega

/-- Witness of C21 (amended): a 90-day certificate read at its notBefore with a
negative renewBefore of one hour. -/
theorem CalculateDurationUntilRenew_fresh_certificate_witness :
    0 ≤ CalculateDurationUntilRenew (optionsWithDefault (30 * Day)) ⟨0⟩
        (certValid 0 (90 * Day)) (crtRenewBefore (some (-Hour))) :=
  (CalculateDurationUntilRenew_fresh_certificate (optionsWithDefault (30 * Day)) ⟨0⟩
    (certValid 0 (90 * Day)) (crtRenewBefore (some (-Hour))) (-Hour) (by decide)
    (by decide) (by decide) (by decide)).1

/-- C22: for a fixed certificate, Certificate spec and options and two current
times `now1 ≤ now2`, with the durations `notAfter - now` and the results within
the range of a `Duration`, `CalculateDurationUntilRenew` at `now2` equals its
value at `now1` minus `now2 - now1`; hence once `CertificateNeedsRenew` is true
at `now1` it is true at `now2`. -/
theorem CalculateDurationUntilRenew_shift
    (o : IssuerOptions) (now1 now2 : Time) (cert : X509Certificate) (crt : Certificate)
    (hle : now1.ns ≤ now2.ns)
    (hdue1 : InInt64 (cert.NotAfter.ns - now1.ns))
    (hdue2 : InInt64 (cert.NotAfter.ns - now2.ns))
    (hres1 : InInt64 (cert.NotAfter.ns - now1.ns - clampedRenewBefore o cert crt))
    (hres2 : InInt64 (cert.NotAfter.ns - now2.ns - clampedRenewBefore o cert crt)) :
    CalculateDurationUntilRenew o now2 cert crt
        = CalculateDurationUntilRenew o now1 cert crt - (now2.ns - now1.ns)
      ∧ CalculateDurationUntilRenew o now2 cert crt
        ≤ CalculateDurationUntilRenew o now1 cert crt
      ∧ (CertificateNeedsRenew o now1 cert crt = true →
          CertificateNeedsRenew o now2 cert crt = true) := by
  have h1 : CalculateDurationUntilRenew o now1 cert crt
      = cert.NotAfter.ns - now1.ns - clampedRenewBefore o cert crt := by
    unfold CalculateDurationUntilRenew Duration.sub Time.Sub
    simp only []
    rw [saturate_of_inInt64 hdue1, wrap64_of_inInt64 hres1]
  have h2 : CalculateDurationUntilRenew o now2 cert crt
      = cert.NotAfter.ns - now2.ns - clampedRenewBefore o cert crt := by
    unfold CalculateDurationUntilRenew Duration.sub Time.Sub
    simp only []
    rw [saturate_of_inInt64 hdue2, wrap64_of_inInt64 hres2]
  refine ⟨by rw [h1, h2]; ring, by rw [h1, h2]; omega, ?_⟩
  unfold CertificateNeedsRenew
  rw [decide_eq_true_iff, decide_eq_true_iff, h1, h2]
  intro h
  omega

/-- Witness of C22: the 90-day certificate with a 30-day renewBefore, read 60
and 61 days after its notBefore. -/
theorem CalculateDurationUntilRenew_shift_witness :
    CalculateDurationUntilRenew (optionsWithDefault (30 * Day)) ⟨61 * Day⟩
        (certValid 0 (90 * Day)) (crtRenewBefore none)
      = CalculateDurationUntilRenew (optionsWithDefault (30 * Day)) ⟨60 * Day⟩
          (certValid 0 (90 * Day)) (crtRenewBefore none) - (61 * Day - 60 * Day)
      ∧ (CertificateNeedsRenew (optionsWithDefault (30 * Day)) ⟨60 * Day⟩
          (certValid 0 (90 * Day)) (crtRenewBefore none) = true →
        CertificateNeedsRenew (optionsWithDefault (30 * Day)) ⟨61 * Day⟩
          (certValid 0 (90 * Day)) (crtRenewBefore none) = true) :=
  ⟨(CalculateDurationUntilRenew_shift (optionsWithDefault (30 * Day)) ⟨60 * Day⟩
      ⟨61 * Day⟩ (certValid 0 (90 * Day)) (crtRenewBefore none) (by decide) (by decide)
      (by decide) (by decide) (by decide)).1,
   (CalculateDurationUntilRenew_shift (optionsWithDefault (30 * Day)) ⟨60 * Day⟩
      ⟨61 * Day⟩ (certValid 0 (90 * Day)) (crtRenewBefore none) (by decide) (by decide)
      (by decide) (by decide) (by decide)).2.2⟩

/-- C27: `ResourceNamespace` returns the namespace of the issuer when it is not
empty, and the configured `ClusterResourceNamespace` when the namespace of the
issuer is empty; the two cases are told apart by that emptiness alone, so a
result different from the namespace of the issuer arises exactly for an empty
namespace. -/
theorem ResourceNamespace_cases (o : IssuerOptions) (iss : GenericIssuer) :
    (iss.Namespace ≠ "" → ResourceNamespace o iss = iss.Namespace)
      ∧ (iss.Namespace = "" → ResourceNamespace o iss = o.ClusterResourceNamespace)
      ∧ (ResourceNamespace o iss = o.ClusterResourceNamespace
          ↔ (iss.Namespace = "" ∨ iss.Namespace = o.ClusterResourceNamespace))
      ∧ (ResourceNamespace o iss ≠ iss.Namespace → iss.Namespace = "")
      ∧ ResourceNamespace ⟨"kube-system", false, false, Hour⟩ (.ClusterIssuer "")
          = "kube-system"
      ∧ ResourceNamespace ⟨"kube-system", false, false, Hour⟩ (.Issuer "team-a")
          = "team-a" := by
  refine ⟨?_, ?_, ?_, ?_, by decide, by decide⟩
  · intro h
    simp only [ResourceNamespace, if_neg h]
  · intro h
    simp only [ResourceNamespace, if_pos h]
  · by_cases h : iss.Namespace = ""
    · simp [ResourceNamespace, h]
    · simp [ResourceNamespace, h]
  · intro hne
    by_contra h
    apply hne
    simp only [ResourceNamespace, if_neg h]

/-- C28: `CanUseAmbientCredentials` returns the `ClusterIssuerAmbientCredentials`
flag for a ClusterIssuer, the `IssuerAmbientCredentials` flag for a namespaced
Issuer and false for any other issuer implementation; the answer for one
scope does not depend on the flag of the other scope. -/
theorem CanUseAmbientCredentials_cases (o : IssuerOptions) (ns : String) :
    CanUseAmbientCredentials o (.ClusterIssuer ns) = o.ClusterIssuerAmbientCredentials
      ∧ CanUseAmbientCredentials o (.Issuer ns) = o.IssuerAmbientCredentials
      ∧ CanUseAmbientCredentials o (.otherIssuer ns) = false
      ∧ (∀ b : Bool,
          CanUseAmbientCredentials { o with IssuerAmbientCredentials := b } (.ClusterIssuer ns)
            = CanUseAmbientCredentials o (.ClusterIssuer ns))
      ∧ (∀ b : Bool,
          CanUseAmbientCredentials { o with ClusterIssuerAmbientCredentials := b } (.Issuer ns)
            = CanUseAmbientCredentials o (.Issuer ns))
      ∧ (∀ o2 : IssuerOptions,
          o2.ClusterIssuerAmbientCredentials = o.ClusterIssuerAmbientCredentials →
          CanUseAmbientCredentials o2 (.ClusterIssuer ns)
            = CanUseAmbientCredentials o (.ClusterIssuer ns))
      ∧ (∀ o2 : IssuerOptions,
          o2.IssuerAmbientCredentials = o.IssuerAmbientCredentials →
          CanUseAmbientCredentials o2 (.Issuer ns)
            = CanUseAmbientCredentials o (.Issuer ns)) := by
  refine ⟨rfl, rfl, rfl, fun _ => rfl, fun _ => rfl, ?_, ?_⟩
  · intro o2 h
    simp only [CanUseAmbientCredentials, h]
  · intro o2 h
    simp only [CanUseAmbientCredentials, h]

/-- C29: `GeneratePrivateKeyForCertificate` passes a declared key size greater
than zero unchanged to the generator, and for a key size that is zero or
negative substitutes the default, 2048 bits for RSA or an unset algorithm and
256 for ECDSA; so every RSA generation it requests, and with it every RSA key
it returns, has a size in [2048, 8192], and every ECDSA generation it requests
is on the curve of a size among 256, 384 and 521. -/
theorem GeneratePrivateKeyForCertificate_key_size (c : Crypto) (crt : Certificate) :
    ((crt.Spec.KeyAlgorithm = "" ∨ crt.Spec.KeyAlgorithm = RSAKeyAlgorithm) →
        (crt.Spec.KeySize > 0 →
          GeneratePrivateKeyForCertificate c crt
            = ((GenerateRSAPrivateKey c crt.Spec.KeySize).1,
               (GenerateRSAPrivateKey c crt.Spec.KeySize).2.map PrivateKey.rsa))
        ∧ (crt.Spec.KeySize ≤ 0 →
          GeneratePrivateKeyForCertificate c crt
            = ([.rsaGenerateKey 2048], (c.rsaGenerateKey 2048).map PrivateKey.rsa)))
      ∧ (crt.Spec.KeyAlgorithm = ECDSAKeyAlgorithm →
        (crt.Spec.KeySize > 0 →
          GeneratePrivateKeyForCertificate c crt
            = ((GenerateECPrivateKey c crt.Spec.KeySize).1,
               (GenerateECPrivateKey c crt.Spec.KeySize).2.map PrivateKey.ecdsa))
        ∧ (crt.Spec.KeySize ≤ 0 →
          GeneratePrivateKeyForCertificate c crt
            = ([.ecdsaGenerateKey .P256], (c.ecdsaGenerateKey .P256).map PrivateKey.ecdsa)))
      ∧ (∀ bits : Int,
          GenerateCall.rsaGenerateKey bits ∈ (GeneratePrivateKeyForCertificate c crt).1 →
          2048 ≤ bits ∧ bits ≤ 8192
            ∧ bits = (if crt.Spec.KeySize > 0 then crt.Spec.KeySize else 2048))
      ∧ (∀ r : RSAPrivateKey,
          (GeneratePrivateKeyForCertificate c crt).2 = .ok (.rsa r) →
          ∃ bits : Int, 2048 ≤ bits ∧ bits ≤ 8192
            ∧ (GeneratePrivateKeyForCertificate c crt).1 = [.rsaGenerateKey bits]
            ∧ c.rsaGenerateKey bits = .ok r)
      ∧ (∀ e : ECDSAPrivateKey,
          (GeneratePrivateKeyForCertificate c crt).2 = .ok (.ecdsa e) →
          ∃ (size : Int) (curve : Curve),
            ((size = 256 ∧ curve = .P256) ∨ (size = 384 ∧ curve = .P384)
              ∨ (size = 521 ∧ curve = .P521))
            ∧ size = (if crt.Spec.KeySize > 0 then crt.Spec.KeySize else 256)
            ∧ (GeneratePrivateKeyForCertificate c crt).1 = [.ecdsaGenerateKey curve]
            ∧ c.ecdsaGenerateKey curve = .ok e) := by
  refine ⟨?_, ?_, ?_, ?_, ?_⟩
  · intro halg
    constructor
    · intro hpos
      simp only [GeneratePrivateKeyForCertificate, if_pos halg, if_pos hpos]
    · intro hle
      have hn : ¬ crt.Spec.KeySize > 0 := not_lt.mpr hle
      simp only [GeneratePrivateKeyForCertificate, if_pos halg, if_neg hn, MinRSAKeySize]
      rw [GenerateRSAPrivateKey_in_range c 2048 (by decide) (by decide)]
  · intro halg
    have hn0 : ¬ (crt.Spec.KeyAlgorithm = "" ∨ crt.Spec.KeyAlgorithm = RSAKeyAlgorithm) := by
      rw [halg]; decide
    constructor
    · intro hpos
      simp only [GeneratePrivateKeyForCertificate, if_neg hn0, if_pos halg, if_pos hpos]
    · intro hle
      have hn : ¬ crt.Spec.KeySize > 0 := not_lt.mpr hle
      simp only [GeneratePrivateKeyForCertificate, if_neg hn0, if_pos halg, if_neg hn,
        ECCurve256]
      rfl
  · intro bits hmem
    unfold GeneratePrivateKeyForCertificate at hmem
    by_cases halg : crt.Spec.KeyAlgorithm = "" ∨ crt.Spec.KeyAlgorithm = RSAKeyAlgorithm
    · simp only [if_pos halg] at hmem
      generalize hk : (if crt.Spec.KeySize > 0 then crt.Spec.KeySize else MinRSAKeySize) = k
        at hmem
      have hk2 : (if crt.Spec.KeySize > 0 then crt.Spec.KeySize else 2048) = k := hk
      rw [hk2]
      by_cases h1 : k < 2048
      · rw [GenerateRSAPrivateKey_weak c k h1] at hmem
        simp at hmem
      · by_cases h2 : k > 8192
        · rw [GenerateRSAPrivateKey_too_big c k (by omega) h2] at hmem
          simp at hmem
        · rw [GenerateRSAPrivateKey_in_range c k (by omega) (by omega)] at hmem
          simp only [List.mem_singleton, GenerateCall.rsaGenerateKey.injEq] at hmem
          omega
    · simp only [if_neg halg] at hmem
      by_cases h2 : crt.Spec.KeyAlgorithm = ECDSAKeyAlgorithm
      · simp only [if_pos h2] at hmem
        unfold GenerateECPrivateKey at hmem
        split_ifs at hmem <;> simp at hmem
      · simp only [if_neg h2] at hmem
        simp at hmem
  · intro r hr
    unfold GeneratePrivateKeyForCertificate at hr ⊢
    by_cases halg : crt.Spec.KeyAlgorithm = "" ∨ crt.Spec.KeyAlgorithm = RSAKeyAlgorithm
    · simp only [if_pos halg] at hr ⊢
      generalize (if crt.Spec.KeySize > 0 then crt.Spec.KeySize else MinRSAKeySize) = k
        at hr ⊢
      by_cases h1 : k < 2048
      · rw [GenerateRSAPrivateKey_weak c k h1] at hr
        simp [Except.map] at hr
      · by_cases h2 : k > 8192
        · rw [GenerateRSAPrivateKey_too_big c k (by omega) h2] at hr
          simp [Except.map] at hr
        · rw [GenerateRSAPrivateKey_in_range c k (by omega) (by omega)] at hr ⊢
          refine ⟨k, by omega, by omega, rfl, ?_⟩
          cases hg : c.rsaGenerateKey k with
          | error e => rw [hg] at hr; simp [Except.map] at hr
          | ok r2 =>
            rw [hg] at hr
            simp only [Except.map, Except.ok.injEq, PrivateKey.rsa.injEq] at hr
            rw [hr]
    · simp only [if_neg halg] at hr
      by_cases h2 : crt.Spec.KeyAlgorithm = ECDSAKeyAlgorithm
      · simp only [if_pos h2] at hr
        cases hg : (GenerateECPrivateKey c
            (if crt.Spec.KeySize > 0 then crt.Spec.KeySize else ECCurve256)).2 with
        | error e => rw [hg] at hr; simp [Except.map] at hr
        | ok r2 => rw [hg] at hr; simp [Except.map] at hr
      · simp only [if_neg h2] at hr
        simp at hr
  · intro e he
    unfold GeneratePrivateKeyForCertificate at he ⊢
    by_cases halg : crt.Spec.KeyAlgorithm = "" ∨ crt.Spec.KeyAlgorithm = RSAKeyAlgorithm
    · simp only [if_pos halg] at he
      cases hg : (GenerateRSAPrivateKey c
          (if crt.Spec.KeySize > 0 then crt.Spec.KeySize else MinRSAKeySize)).2 with
      | error e => rw [hg] at he; simp [Except.map] at he
      | ok r2 => rw [hg] at he; simp [Except.map] at he
    · simp only [if_neg halg] at he ⊢
      by_cases h2 : crt.Spec.KeyAlgorithm = ECDSAKeyAlgorithm
      · simp only [if_pos h2] at he ⊢
        generalize hk : (if crt.Spec.KeySize > 0 then crt.Spec.KeySize else ECCurve256) = k
          at he ⊢
        have hk2 : (if crt.Spec.KeySize > 0 then crt.Spec.KeySize else 256) = k := hk
        rw [hk2]
        have hmapped : ∀ (curve : Curve) (x : Except String ECDSAPrivateKey),
            Except.map PrivateKey.ecdsa x = .ok (.ecdsa e) → x = .ok e := by
          intro curve x hx
          cases x with
          | error err => simp [Except.map] at hx
          | ok y =>
            simp only [Except.map, Except.ok.injEq, PrivateKey.ecdsa.injEq] at hx
            rw [hx]
        unfold GenerateECPrivateKey at he ⊢
        by_cases c1 : k = ECCurve256
        · simp only [if_pos c1] at he ⊢
          exact ⟨k, .P256, Or.inl ⟨c1, rfl⟩, rfl, rfl, hmapped .P256 _ he⟩
        · simp only [if_neg c1] at he ⊢
          by_cases c2 : k = ECCurve384
          · simp only [if_pos c2] at he ⊢
            exact ⟨k, .P384, Or.inr (Or.inl ⟨c2, rfl⟩), rfl, rfl, hmapped .P384 _ he⟩
          · simp only [if_neg c2] at he ⊢
            by_cases c3 : k = ECCurve521
            · simp only [if_pos c3] at he ⊢
              exact ⟨k, .P521, Or.inr (Or.inr ⟨c3, rfl⟩), rfl, rfl, hmapped .P521 _ he⟩
            · simp only [if_neg c3] at he
              simp [Except.map] at he
      · simp only [if_neg h2] at he
        simp at he

/-! ## The steps of Venafi `Issue` -/

theorem filter_isBackendCall_generate (calls : List GenerateCall) :
    List.filter IssueEffect.isBackendCall (calls.map IssueEffect.Generate) = [] := by
  induction calls with
  | nil => rfl
  | cons g gs ih =>
    rw [List.map_cons, List.filter_cons_of_neg (by simp [IssueEffect.isBackendCall])]
    exact ih

theorem Issue_publicKey_error (c : Crypto) (v : Venafi) (crt : Certificate)
    (key : PrivateKey) (e : String)
    (hg : (GeneratePrivateKeyForCertificate c crt).2 = .ok key)
    (hp : PublicKeyForPrivateKey key = .error e) :
    (Issue c v crt).2 = (none, some e) ∧ backendCalls (Issue c v crt).1 = [] := by
  unfold Issue
  simp only [hg, hp]
  refine ⟨trivial, ?_⟩
  simp [backendCalls, IssueEffect.isBackendCall, List.filter_append, List.filter_cons,
    filter_isBackendCall_generate]

theorem Issue_validate_error (c : Crypto) (v : Venafi) (crt : Certificate)
    (key : PrivateKey) (pub : PublicKey) (tmpl0 : CertificateTemplate)
    (zoneCfg : ZoneConfiguration) (e : String)
    (hg : (GeneratePrivateKeyForCertificate c crt).2 = .ok key)
    (hp : PublicKeyForPrivateKey key = .ok pub)
    (ht : v.GenerateTemplate crt = .ok tmpl0)
    (hz : v.ReadZoneConfiguration = .ok zoneCfg)
    (hv : zoneCfg.ValidateCertificateRequest
        (issueRequest v zoneCfg (issueTemplate crt tmpl0 pub) key) = some e) :
    (Issue c v crt).2 = (none, some e)
      ∧ backendCalls (Issue c v crt).1 = [.ReadZoneConfiguration] := by
  unfold issueRequest issueTemplate at hv
  simp only [] at hv
  unfold Issue
  simp only [hg, hp, ht, hz, hv]
  refine ⟨trivial, ?_⟩
  simp [backendCalls, IssueEffect.isBackendCall, List.filter_append, List.filter_cons,
    filter_isBackendCall_generate]

theorem Issue_template_error (c : Crypto) (v : Venafi) (crt : Certificate)
    (key : PrivateKey) (pub : PublicKey) (e : String)
    (hg : (GeneratePrivateKeyForCertificate c crt).2 = .ok key)
    (hp : PublicKeyForPrivateKey key = .ok pub)
    (hf : v.GenerateTemplate crt = .error e) :
    (Issue c v crt).2 = (none, some e)
      ∧ backendCalls (Issue c v crt).1
        = [] := by
  unfold Issue
  simp only [hg, hp, hf]
  refine ⟨trivial, ?_⟩
  simp [backendCalls, IssueEffect.isBackendCall, List.filter_append, List.filter_cons,
    filter_isBackendCall_generate, issueSubmitted, issuePickup]

theorem Issue_zone_error (c : Crypto) (v : Venafi) (crt : Certificate)
    (key : PrivateKey) (pub : PublicKey) (tmpl0 : CertificateTemplate) (e : String)
    (hg : (GeneratePrivateKeyForCertificate c crt).2 = .ok key)
    (hp : PublicKeyForPrivateKey key = .ok pub)
    (ht : v.GenerateTemplate crt = .ok tmpl0)
    (hf : v.ReadZoneConfiguration = .error e) :
    (Issue c v crt).2 = (none, some e)
      ∧ backendCalls (Issue c v crt).1
        = [.ReadZoneConfiguration] := by
  unfold Issue
  simp only [hg, hp, ht, hf]
  refine ⟨trivial, ?_⟩
  simp [backendCalls, IssueEffect.isBackendCall, List.filter_append, List.filter_cons,
    filter_isBackendCall_generate, issueSubmitted, issuePickup]

theorem Issue_csr_error (c : Crypto) (v : Venafi) (crt : Certificate)
    (key : PrivateKey) (pub : PublicKey) (tmpl0 : CertificateTemplate)
    (zoneCfg : ZoneConfiguration) (e : String)
    (hg : (GeneratePrivateKeyForCertificate c crt).2 = .ok key)
    (hp : PublicKeyForPrivateKey key = .ok pub)
    (ht : v.GenerateTemplate crt = .ok tmpl0)
    (hz : v.ReadZoneConfiguration = .ok zoneCfg)
    (hv : zoneCfg.ValidateCertificateRequest
        (issueRequest v zoneCfg (issueTemplate crt tmpl0 pub) key) = none)
    (hf : v.GenerateCSR (issueRequest v zoneCfg (issueTemplate crt tmpl0 pub) key)
        = .error e) :
    (Issue c v crt).2 = (none, some e)
      ∧ backendCalls (Issue c v crt).1
        = [.ReadZoneConfiguration] := by
  simp only [issueRequest, issueTemplate, issueSubmitted, issuePickup] at hv hf
  unfold Issue
  simp only [hg, hp, ht, hz, hv, hf]
  refine ⟨trivial, ?_⟩
  simp [backendCalls, IssueEffect.isBackendCall, List.filter_append, List.filter_cons,
    filter_isBackendCall_generate, issueSubmitted, issuePickup]

theorem Issue_request_error (c : Crypto) (v : Venafi) (crt : Certificate)
    (key : PrivateKey) (pub : PublicKey) (tmpl0 : CertificateTemplate)
    (zoneCfg : ZoneConfiguration) (vreq3 : VRequest) (e : String)
    (hg : (GeneratePrivateKeyForCertificate c crt).2 = .ok key)
    (hp : PublicKeyForPrivateKey key = .ok pub)
    (ht : v.GenerateTemplate crt = .ok tmpl0)
    (hz : v.ReadZoneConfiguration = .ok zoneCfg)
    (hv : zoneCfg.ValidateCertificateRequest
        (issueRequest v zoneCfg (issueTemplate crt tmpl0 pub) key) = none)
    (hc : v.GenerateCSR (issueRequest v zoneCfg (issueTemplate crt tmpl0 pub) key)
        = .ok vreq3)
    (hf : v.RequestCertificate (issueSubmitted vreq3) = .error e) :
    (Issue c v crt).2 = (none, some e)
      ∧ backendCalls (Issue c v crt).1
        = [.ReadZoneConfiguration, .RequestCertificate (issueSubmitted vreq3)] := by
  simp only [issueRequest, issueTemplate, issueSubmitted, issuePickup] at hv hc hf
  unfold Issue
  simp only [hg, hp, ht, hz, hv, hc, hf]
  refine ⟨trivial, ?_⟩
  simp [backendCalls, IssueEffect.isBackendCall, List.filter_append, List.filter_cons,
    filter_isBackendCall_generate, issueSubmitted, issuePickup]

theorem Issue_encode_error (c : Crypto) (v : Venafi) (crt : Certificate)
    (key : PrivateKey) (pub : PublicKey) (tmpl0 : CertificateTemplate)
    (zoneCfg : ZoneConfiguration) (vreq3 : VRequest) (requestID : String)
    (pemCollection : PEMCollection) (e : String)
    (hg : (GeneratePrivateKeyForCertificate c crt).2 = .ok key)
    (hp : PublicKeyForPrivateKey key = .ok pub)
    (ht : v.GenerateTemplate crt = .ok tmpl0)
    (hz : v.ReadZoneConfiguration = .ok zoneCfg)
    (hv : zoneCfg.ValidateCertificateRequest
        (issueRequest v zoneCfg (issueTemplate crt tmpl0 pub) key) = none)
    (hc : v.GenerateCSR (issueRequest v zoneCfg (issueTemplate crt tmpl0 pub) key)
        = .ok vreq3)
    (hr : v.RequestCertificate (issueSubmitted vreq3) = .ok requestID)
    (hx : v.RetrieveCertificate (issuePickup (issueSubmitted vreq3) requestID)
        = .ok pemCollection)
    (hf : EncodePrivateKey c key crt.Spec.KeyEncoding = .error e) :
    (Issue c v crt).2 = (none, some e)
      ∧ backendCalls (Issue c v crt).1
        = [.ReadZoneConfiguration, .RequestCertificate (issueSubmitted vreq3),
          .RetrieveCertificate (issuePickup (issueSubmitted vreq3) requestID)] := by
  simp only [issueRequest, issueTemplate, issueSubmitted, issuePickup] at hv hc hr hx
  unfold Issue
  simp only [hg, hp, ht, hz, hv, hc, hr, hx, hf]
  refine ⟨trivial, ?_⟩
  simp [backendCalls, IssueEffect.isBackendCall, List.filter_append, List.filter_cons,
    filter_isBackendCall_generate, issueSubmitted, issuePickup]

theorem Issue_success (c : Crypto) (v : Venafi) (crt : Certificate)
    (key : PrivateKey) (pub : PublicKey) (tmpl0 : CertificateTemplate)
    (zoneCfg : ZoneConfiguration) (vreq3 : VRequest) (requestID : String)
    (pemCollection : PEMCollection) (pk : Bytes)
    (hg : (GeneratePrivateKeyForCertificate c crt).2 = .ok key)
    (hp : PublicKeyForPrivateKey key = .ok pub)
    (ht : v.GenerateTemplate crt = .ok tmpl0)
    (hz : v.ReadZoneConfiguration = .ok zoneCfg)
    (hv : zoneCfg.ValidateCertificateRequest
        (issueRequest v zoneCfg (issueTemplate crt tmpl0 pub) key) = none)
    (hc : v.GenerateCSR (issueRequest v zoneCfg (issueTemplate crt tmpl0 pub) key)
        = .ok vreq3)
    (hr : v.RequestCertificate (issueSubmitted vreq3) = .ok requestID)
    (hx : v.RetrieveCertificate (issuePickup (issueSubmitted vreq3) requestID)
        = .ok pemCollection)
    (hf : EncodePrivateKey c key crt.Spec.KeyEncoding = .ok pk) :
    (Issue c v crt).2
        = (some (IssueResponse.mk
            (stringBytes (String.intercalate "\n"
              ([pemCollection.Certificate] ++ pemCollection.Chain))) pk []), none)
      ∧ backendCalls (Issue c v crt).1
        = [.ReadZoneConfiguration, .RequestCertificate (issueSubmitted vreq3),
          .RetrieveCertificate (issuePickup (issueSubmitted vreq3) requestID)] := by
  simp only [issueRequest, issueTemplate, issueSubmitted, issuePickup] at hv hc hr hx
  unfold Issue
  simp only [hg, hp, ht, hz, hv, hc, hr, hx, hf]
  refine ⟨trivial, ?_⟩
  simp [backendCalls, IssueEffect.isBackendCall, List.filter_append, List.filter_cons,
    filter_isBackendCall_generate, issueSubmitted, issuePickup]

theorem Issue_retrieve_error (c : Crypto) (v : Venafi) (crt : Certificate)
    (key : PrivateKey) (pub : PublicKey) (tmpl0 : CertificateTemplate)
    (zoneCfg : ZoneConfiguration) (vreq3 : VRequest) (requestID : String) (re : RetrieveError)
    (hg : (GeneratePrivateKeyForCertificate c crt).2 = .ok key)
    (hp : PublicKeyForPrivateKey key = .ok pub)
    (ht : v.GenerateTemplate crt = .ok tmpl0)
    (hz : v.ReadZoneConfiguration = .ok zoneCfg)
    (hv : zoneCfg.ValidateCertificateRequest
        (issueRequest v zoneCfg (issueTemplate crt tmpl0 pub) key) = none)
    (hc : v.GenerateCSR (issueRequest v zoneCfg (issueTemplate crt tmpl0 pub) key)
        = .ok vreq3)
    (hr : v.RequestCertificate (issueSubmitted vreq3) = .ok requestID)
    (hf : v.RetrieveCertificate (issuePickup (issueSubmitted vreq3) requestID)
        = .error re) :
    (Issue c v crt).2 = (none, some (retrieveErrorText re))
      ∧ backendCalls (Issue c v crt).1
        = [.ReadZoneConfiguration, .RequestCertificate (issueSubmitted vreq3),
          .RetrieveCertificate (issuePickup (issueSubmitted vreq3) requestID)] := by
  simp only [issueRequest, issueTemplate, issueSubmitted, issuePickup] at hv hc hr hf
  unfold Issue
  cases re <;>
  · simp only [hg, hp, ht, hz, hv, hc, hr, hf, retrieveErrorText]
    refine ⟨trivial, ?_⟩
    simp [backendCalls, IssueEffect.isBackendCall, List.filter_append, List.filter_cons,
      filter_isBackendCall_generate, issueSubmitted, issuePickup]

theorem Issue_keygen_error (c : Crypto) (v : Venafi) (crt : Certificate) (e : String)
    (hg : (GeneratePrivateKeyForCertificate c crt).2 = .error e) :
    (Issue c v crt).2 = (none, none) := by
  unfold Issue
  simp only [hg]

theorem Issue_response_chain (c : Crypto) (v : Venafi) (crt : Certificate)
    (resp : IssueResponse) (h : (Issue c v crt).2.1 = some resp) :
    ∃ (key : PrivateKey) (pub : PublicKey) (tmpl0 : CertificateTemplate)
      (zoneCfg : ZoneConfiguration) (vreq3 : VRequest) (requestID : String)
      (pemCollection : PEMCollection) (pk : Bytes),
      (GeneratePrivateKeyForCertificate c crt).2 = .ok key
        ∧ PublicKeyForPrivateKey key = .ok pub
        ∧ v.GenerateTemplate crt = .ok tmpl0
        ∧ v.ReadZoneConfiguration = .ok zoneCfg
        ∧ zoneCfg.ValidateCertificateRequest
            (issueRequest v zoneCfg (issueTemplate crt tmpl0 pub) key) = none
        ∧ v.GenerateCSR (issueRequest v zoneCfg (issueTemplate crt tmpl0 pub) key)
            = .ok vreq3
        ∧ v.RequestCertificate (issueSubmitted vreq3) = .ok requestID
        ∧ v.RetrieveCertificate (issuePickup (issueSubmitted vreq3) requestID)
            = .ok pemCollection
        ∧ EncodePrivateKey c key crt.Spec.KeyEncoding = .ok pk
        ∧ resp = IssueResponse.mk
            (stringBytes (String.intercalate "\n"
              ([pemCollection.Certificate] ++ pemCollection.Chain))) pk []
        ∧ backendCalls (Issue c v crt).1
          = [.ReadZoneConfiguration, .RequestCertificate (issueSubmitted vreq3),
            .RetrieveCertificate (issuePickup (issueSubmitted vreq3) requestID)] := by
  cases hg : (GeneratePrivateKeyForCertificate c crt).2 with
  | error e => rw [Issue_keygen_error c v crt e hg] at h; simp at h
  | ok key =>
  cases hp : PublicKeyForPrivateKey key with
  | error e => rw [(Issue_publicKey_error c v crt key e hg hp).1] at h; simp at h
  | ok pub =>
  cases ht : v.GenerateTemplate crt with
  | error e => rw [(Issue_template_error c v crt key pub e hg hp ht).1] at h; simp at h
  | ok tmpl0 =>
  cases hz : v.ReadZoneConfiguration with
  | error e => rw [(Issue_zone_error c v crt key pub tmpl0 e hg hp ht hz).1] at h; simp at h
  | ok zoneCfg =>
  cases hv : zoneCfg.ValidateCertificateRequest
      (issueRequest v zoneCfg (issueTemplate crt tmpl0 pub) key) with
  | some e =>
    rw [(Issue_validate_error c v crt key pub tmpl0 zoneCfg e hg hp ht hz hv).1] at h
    simp at h
  | none =>
  cases hc : v.GenerateCSR (issueRequest v zoneCfg (issueTemplate crt tmpl0 pub) key) with
  | error e =>
    rw [(Issue_csr_error c v crt key pub tmpl0 zoneCfg e hg hp ht hz hv hc).1] at h
    simp at h
  | ok vreq3 =>
  cases hr : v.RequestCertificate (issueSubmitted vreq3) with
  | error e =>
    rw [(Issue_request_error c v crt key pub tmpl0 zoneCfg vreq3 e hg hp ht hz hv hc hr).1] at h
    simp at h
  | ok requestID =>
  cases hx : v.RetrieveCertificate (issuePickup (issueSubmitted vreq3) requestID) with
  | error re =>
    rw [(Issue_retrieve_error c v crt key pub tmpl0 zoneCfg vreq3 requestID re
      hg hp ht hz hv hc hr hx).1] at h
    simp at h
  | ok pemCollection =>
  cases he : EncodePrivateKey c key crt.Spec.KeyEncoding with
  | error e =>
    rw [(Issue_encode_error c v crt key pub tmpl0 zoneCfg vreq3 requestID pemCollection e
      hg hp ht hz hv hc hr hx he).1] at h
    simp at h
  | ok pk =>
    have hs := Issue_success c v crt key pub tmpl0 zoneCfg vreq3 requestID pemCollection pk
      hg hp ht hz hv hc hr hx he
    rw [hs.1] at h
    simp only [Option.some.injEq] at h
    refine ⟨key, pub, tmpl0, zoneCfg, vreq3, requestID, pemCollection, pk,
      ?_, ?_, ?_, ?_, ?_, ?_, ?_, ?_, ?_, h.symm, hs.2⟩ <;> first | rfl | assumption

/-- C23: whenever Venafi `Issue` returns a response, its `Certificate` field is
the leaf certificate retrieved from the backend followed by the chain entries
in their order, joined by single newline characters (the leaf alone when the
chain is empty), its `PrivateKey` field is `EncodePrivateKey` of the key
generated in this call under the key encoding of the Certificate, and its `CA`
field is empty. -/
theorem Issue_response_fields (c : Crypto) (v : Venafi) (crt : Certificate)
    (resp : IssueResponse) (hresp : (Issue c v crt).2.1 = some resp) :
    ∃ (key : PrivateKey) (vreq : VRequest) (pemCollection : PEMCollection),
      (GeneratePrivateKeyForCertificate c crt).2 = .ok key
        ∧ IssueEffect.RetrieveCertificate vreq ∈ (Issue c v crt).1
        ∧ v.RetrieveCertificate vreq = .ok pemCollection
        ∧ resp.Certificate = stringBytes (String.intercalate "\n"
            (pemCollection.Certificate :: pemCollection.Chain))
        ∧ (pemCollection.Chain = [] →
            resp.Certificate = stringBytes pemCollection.Certificate)
        ∧ EncodePrivateKey c key crt.Spec.KeyEncoding = .ok resp.PrivateKey
        ∧ resp.CA = [] := by
  obtain ⟨key, pub, tmpl0, zoneCfg, vreq3, requestID, pemCollection, pk,
    hg, _, _, _, _, _, _, hx, he, hr, hcalls⟩ := Issue_response_chain c v crt resp hresp
  refine ⟨key, issuePickup (issueSubmitted vreq3) requestID, pemCollection, hg, ?_, hx,
    ?_, ?_, ?_, ?_⟩
  · have hmem : IssueEffect.RetrieveCertificate (issuePickup (issueSubmitted vreq3) requestID)
        ∈ backendCalls (Issue c v crt).1 := by
      rw [hcalls]; simp
    unfold backendCalls at hmem
    exact (List.mem_filter.mp hmem).1
  · rw [hr]; rfl
  · intro hchain
    rw [hr, hchain]
    rfl
  · rw [hr]; exact he
  · rw [hr]

/-- Witness of C23: an RSA Certificate issued on a backend that retrieves a
leaf and a chain of two. -/
theorem Issue_response_fields_witness :
    (Issue toyCrypto (toyVenafi (.ok toyPEMCollection)) (crtKey RSAKeyAlgorithm 2048)).2.1
        = some ⟨stringBytes "LEAF\nINTERMEDIATE\nROOT", [1], []⟩
      ∧ ∃ (key : PrivateKey) (vreq : VRequest) (pemCollection : PEMCollection),
        (GeneratePrivateKeyForCertificate toyCrypto (crtKey RSAKeyAlgorithm 2048)).2 = .ok key
          ∧ IssueEffect.RetrieveCertificate vreq
            ∈ (Issue toyCrypto (toyVenafi (.ok toyPEMCollection))
                (crtKey RSAKeyAlgorithm 2048)).1
          ∧ (toyVenafi (.ok toyPEMCollection)).RetrieveCertificate vreq = .ok pemCollection
          ∧ (⟨stringBytes "LEAF\nINTERMEDIATE\nROOT", [1], []⟩ : IssueResponse).Certificate
            = stringBytes (String.intercalate "\n"
                (pemCollection.Certificate :: pemCollection.Chain))
          ∧ (pemCollection.Chain = [] →
              (⟨stringBytes "LEAF\nINTERMEDIATE\nROOT", [1], []⟩ : IssueResponse).Certificate
                = stringBytes pemCollection.Certificate)
          ∧ EncodePrivateKey toyCrypto key (crtKey RSAKeyAlgorithm 2048).Spec.KeyEncoding
            = .ok (⟨stringBytes "LEAF\nINTERMEDIATE\nROOT", [1], []⟩ : IssueResponse).PrivateKey
          ∧ (⟨stringBytes "LEAF\nINTERMEDIATE\nROOT", [1], []⟩ : IssueResponse).CA = [] :=
  ⟨rfl,
   Issue_response_fields toyCrypto (toyVenafi (.ok toyPEMCollection))
    (crtKey RSAKeyAlgorithm 2048) ⟨stringBytes "LEAF\nINTERMEDIATE\nROOT", [1], []⟩ rfl⟩

/-- C24: for every Certificate and every behaviour of the Venafi backend,
`Issue` never returns a response together with an error; it returns a
response only if every step succeeded in order (key generation, public-key
extraction, template generation, zone read, zone validation, CSR generation,
certificate request, certificate retrieval, private-key encoding); and once
the key is generated, a failure at any step yields `(nil, err)`, never
`(nil, nil)`, with no call on the backend after the step that failed: the
calls made are the zone read, then the certificate request, then the
retrieval, up to that step. -/
theorem Issue_steps_in_order (c : Crypto) (v : Venafi) (crt : Certificate) :
    ((Issue c v crt).2.1 = none ∨ (Issue c v crt).2.2 = none)
      ∧ (∀ resp : IssueResponse, (Issue c v crt).2.1 = some resp →
          ∃ (key : PrivateKey) (pub : PublicKey) (tmpl0 : CertificateTemplate)
            (zoneCfg : ZoneConfiguration) (vreq3 : VRequest) (requestID : String)
            (pemCollection : PEMCollection) (pk : Bytes),
            (GeneratePrivateKeyForCertificate c crt).2 = .ok key
              ∧ PublicKeyForPrivateKey key = .ok pub
              ∧ v.GenerateTemplate crt = .ok tmpl0
              ∧ v.ReadZoneConfiguration = .ok zoneCfg
              ∧ zoneCfg.ValidateCertificateRequest
                  (issueRequest v zoneCfg (issueTemplate crt tmpl0 pub) key) = none
              ∧ v.GenerateCSR (issueRequest v zoneCfg (issueTemplate crt tmpl0 pub) key)
                  = .ok vreq3
              ∧ v.RequestCertificate (issueSubmitted vreq3) = .ok requestID
              ∧ v.RetrieveCertificate (issuePickup (issueSubmitted vreq3) requestID)
                  = .ok pemCollection
              ∧ EncodePrivateKey c key crt.Spec.KeyEncoding = .ok pk
              ∧ backendCalls (Issue c v crt).1
                = [.ReadZoneConfiguration, .RequestCertificate (issueSubmitted vreq3),
                  .RetrieveCertificate (issuePickup (issueSubmitted vreq3) requestID)])
      ∧ (∀ key : PrivateKey, (GeneratePrivateKeyForCertificate c crt).2 = .ok key →
          (Issue c v crt).2 ≠ (none, none)
          ∧ (∀ e : String, PublicKeyForPrivateKey key = .error e →
              (Issue c v crt).2 = (none, some e) ∧ backendCalls (Issue c v crt).1 = [])
          ∧ ∀ pub : PublicKey, PublicKeyForPrivateKey key = .ok pub →
          (∀ e : String, v.GenerateTemplate crt = .error e →
              (Issue c v crt).2 = (none, some e) ∧ backendCalls (Issue c v crt).1 = [])
          ∧ ∀ tmpl0 : CertificateTemplate, v.GenerateTemplate crt = .ok tmpl0 →
          (∀ e : String, v.ReadZoneConfiguration = .error e →
              (Issue c v crt).2 = (none, some e)
                ∧ backendCalls (Issue c v crt).1 = [.ReadZoneConfiguration])
          ∧ ∀ zoneCfg : ZoneConfiguration, v.ReadZoneConfiguration = .ok zoneCfg →
          (∀ e : String, zoneCfg.ValidateCertificateRequest
                (issueRequest v zoneCfg (issueTemplate crt tmpl0 pub) key) = some e →
              (Issue c v crt).2 = (none, some e)
                ∧ backendCalls (Issue c v crt).1 = [.ReadZoneConfiguration])
          ∧ (zoneCfg.ValidateCertificateRequest
                (issueRequest v zoneCfg (issueTemplate crt tmpl0 pub) key) = none →
          (∀ e : String,
              v.GenerateCSR (issueRequest v zoneCfg (issueTemplate crt tmpl0 pub) key)
                = .error e →
              (Issue c v crt).2 = (none, some e)
                ∧ backendCalls (Issue c v crt).1 = [.ReadZoneConfiguration])
          ∧ ∀ vreq3 : VRequest,
              v.GenerateCSR (issueRequest v zoneCfg (issueTemplate crt tmpl0 pub) key)
                = .ok vreq3 →
          (∀ e : String, v.RequestCertificate (issueSubmitted vreq3) = .error e →
              (Issue c v crt).2 = (none, some e)
                ∧ backendCalls (Issue c v crt).1
                  = [.ReadZoneConfiguration, .RequestCertificate (issueSubmitted vreq3)])
          ∧ ∀ requestID : String,
              v.RequestCertificate (issueSubmitted vreq3) = .ok requestID →
          (∀ re : RetrieveError,
              v.RetrieveCertificate (issuePickup (issueSubmitted vreq3) requestID)
                = .error re →
              (Issue c v crt).2 = (none, some (retrieveErrorText re))
                ∧ backendCalls (Issue c v crt).1
                  = [.ReadZoneConfiguration, .RequestCertificate (issueSubmitted vreq3),
                    .RetrieveCertificate (issuePickup (issueSubmitted vreq3) requestID)])
          ∧ ∀ pemCollection : PEMCollection,
              v.RetrieveCertificate (issuePickup (issueSubmitted vreq3) requestID)
                = .ok pemCollection →
          (∀ e : String, EncodePrivateKey c key crt.Spec.KeyEncoding = .error e →
              (Issue c v crt).2 = (none, some e)
                ∧ backendCalls (Issue c v crt).1
                  = [.ReadZoneConfiguration, .RequestCertificate (issueSubmitted vreq3),
                    .RetrieveCertificate (issuePickup (issueSubmitted vreq3) requestID)])
          ∧ ∀ pk : Bytes, EncodePrivateKey c key crt.Spec.KeyEncoding = .ok pk →
              (∃ resp : IssueResponse, (Issue c v crt).2 = (some resp, none))
                ∧ backendCalls (Issue c v crt).1
                  = [.ReadZoneConfiguration, .RequestCertificate (issueSubmitted vreq3),
                    .RetrieveCertificate (issuePickup (issueSubmitted vreq3) requestID)])) := by
  refine ⟨?_, ?_, ?_⟩
  · unfold Issue
    simp only []
    repeat' split
    all_goals simp
  · intro resp hresp
    obtain ⟨key, pub, tmpl0, zoneCfg, vreq3, requestID, pemCollection, pk,
      hg, hp, ht, hz, hv, hc, hr, hx, he, _, hcalls⟩ := Issue_response_chain c v crt resp hresp
    exact ⟨key, pub, tmpl0, zoneCfg, vreq3, requestID, pemCollection, pk,
      hg, hp, ht, hz, hv, hc, hr, hx, he, hcalls⟩
  · intro key hg
    refine ⟨?_, ?_, ?_⟩
    · unfold Issue
      simp only [hg]
      repeat' split
      all_goals simp
    · intro e hp
      exact Issue_publicKey_error c v crt key e hg hp
    intro pub hp
    refine ⟨fun e hf => Issue_template_error c v crt key pub e hg hp hf, ?_⟩
    intro tmpl0 ht
    refine ⟨fun e hf => Issue_zone_error c v crt key pub tmpl0 e hg hp ht hf, ?_⟩
    intro zoneCfg hz
    refine ⟨fun e hf => Issue_validate_error c v crt key pub tmpl0 zoneCfg e hg hp ht hz hf, ?_⟩
    intro hv
    refine ⟨fun e hf => Issue_csr_error c v crt key pub tmpl0 zoneCfg e hg hp ht hz hv hf, ?_⟩
    intro vreq3 hc
    refine ⟨fun e hf =>
      Issue_request_error c v crt key pub tmpl0 zoneCfg vreq3 e hg hp ht hz hv hc hf, ?_⟩
    intro requestID hr
    refine ⟨fun re hf => Issue_retrieve_error c v crt key pub tmpl0 zoneCfg vreq3 requestID re
      hg hp ht hz hv hc hr hf, ?_⟩
    intro pemCollection hx
    refine ⟨fun e hf => Issue_encode_error c v crt key pub tmpl0 zoneCfg vreq3 requestID
      pemCollection e hg hp ht hz hv hc hr hx hf, ?_⟩
    intro pk he
    have hs := Issue_success c v crt key pub tmpl0 zoneCfg vreq3 requestID pemCollection pk
      hg hp ht hz hv hc hr hx he
    exact ⟨⟨_, hs.1⟩, hs.2⟩

/-! ## Certificate metrics -/

theorem splitSlash_of_not_mem (cs : List Char) (h : '/' ∉ cs) : splitSlash cs = [cs] := by
  induction cs with
  | nil => rfl
  | cons ch rest ih =>
    have hne : ch ≠ '/' := fun heq => h (by rw [heq]; exact List.mem_cons_self _ _)
    have hrest : '/' ∉ rest := fun hm => h (List.mem_cons_of_mem _ hm)
    simp only [splitSlash, if_neg hne, ih hrest]

theorem splitSlash_append (a b : List Char) (h : '/' ∉ a) :
    splitSlash (a ++ '/' :: b) = a :: splitSlash b := by
  induction a with
  | nil => simp [splitSlash]
  | cons ch rest ih =>
    have hne : ch ≠ '/' := fun heq => h (by rw [heq]; exact List.mem_cons_self _ _)
    have hrest : '/' ∉ rest := fun hm => h (List.mem_cons_of_mem _ hm)
    rw [List.cons_append, splitSlash, if_neg hne, ih hrest]

theorem DeletionHandlingMetaNamespaceKeyFunc_eq (crt : Certificate) :
    DeletionHandlingMetaNamespaceKeyFunc crt = .ok (namespaceKey crt.Namespace crt.Name) := by
  unfold DeletionHandlingMetaNamespaceKeyFunc namespaceKey
  split <;> rfl

theorem SplitMetaNamespaceKey_namespaceKey (ns name : String)
    (hns : slashFree ns) (hname : slashFree name) :
    SplitMetaNamespaceKey (namespaceKey ns name) = some (ns, name) := by
  unfold slashFree at hns hname
  unfold namespaceKey SplitMetaNamespaceKey
  by_cases h : ns.length > 0
  · rw [if_pos h]
    have hdata : (ns ++ "/" ++ name).data = ns.data ++ '/' :: name.data := by
      simp [String.data_append]
    rw [hdata, splitSlash_append _ _ hns, splitSlash_of_not_mem _ hname]
  · rw [if_neg h]
    have h0 : ns = "" := by
      have hl : ns.data.length = 0 := by
        have : ns.length = ns.data.length := rfl
        omega
      have hd : ns.data = [] := List.length_eq_zero.mp hl
      cases ns
      simp only at hd
      subst hd
      rfl
    rw [splitSlash_of_not_mem _ hname, h0]

theorem namespaceKey_injective (ns name ns2 name2 : String)
    (h1 : slashFree ns) (h2 : slashFree name) (h3 : slashFree ns2) (h4 : slashFree name2)
    (h : namespaceKey ns name = namespaceKey ns2 name2) : ns = ns2 ∧ name = name2 := by
  have e1 := SplitMetaNamespaceKey_namespaceKey ns name h1 h2
  have e2 := SplitMetaNamespaceKey_namespaceKey ns2 name2 h3 h4
  rw [h, e2] at e1
  simp only [Option.some.injEq, Prod.mk.injEq] at e1
  exact ⟨e1.1.symm, e1.2.symm⟩

theorem cleanUpCertificates_eq_foldl (activeCrts : List Certificate) (p : MetricsPackage) :
    cleanUpCertificates activeCrts p
      = (p.registeredCertificates.filter (fun key =>
          decide (key ∉ activeCrts.map (fun crt => namespaceKey crt.Namespace crt.Name)))).foldl
          cleanUpKey p := by
  have hmap : activeCrts.filterMap (fun crt =>
      match DeletionHandlingMetaNamespaceKeyFunc crt with
      | .error _ => none
      | .ok key => some key)
      = activeCrts.map (fun crt => namespaceKey crt.Namespace crt.Name) := by
    induction activeCrts with
    | nil => rfl
    | cons crt rest ih =>
      simp only [List.filterMap_cons, DeletionHandlingMetaNamespaceKeyFunc_eq, List.map_cons]
      rw [← ih]
      simp only [DeletionHandlingMetaNamespaceKeyFunc_eq]
  unfold cleanUpCertificates
  simp only [hmap]
  rfl

theorem mem_activeKeys_iff (activeCrts : List Certificate) (key : String) :
    key ∈ activeCrts.map (fun crt => namespaceKey crt.Namespace crt.Name)
      ↔ ∃ crt ∈ activeCrts, DeletionHandlingMetaNamespaceKeyFunc crt = .ok key := by
  simp only [List.mem_map, DeletionHandlingMetaNamespaceKeyFunc_eq, Except.ok.injEq]

theorem cleanUpKey_registered (q : MetricsPackage) (a k : String) :
    k ∈ (cleanUpKey q a).registeredCertificates
      ↔ (k ∈ q.registeredCertificates
          ∧ ¬ (k = a ∧ (SplitMetaNamespaceKey k).isSome = true)) := by
  unfold cleanUpKey
  cases hs : SplitMetaNamespaceKey a with
  | none =>
    simp only
    constructor
    · intro h
      refine ⟨h, ?_⟩
      rintro ⟨rfl, h2⟩
      rw [hs] at h2
      simp at h2
    · intro h; exact h.1
  | some pair =>
    obtain ⟨ns, name⟩ := pair
    simp only [List.mem_filter, decide_eq_true_eq]
    constructor
    · rintro ⟨h1, h2⟩
      exact ⟨h1, fun h3 => h2 h3.1⟩
    · rintro ⟨h1, h2⟩
      refine ⟨h1, ?_⟩
      intro h3
      apply h2
      subst h3
      exact ⟨rfl, by rw [hs]; rfl⟩

theorem foldl_cleanUpKey_registered (l : List String) :
    ∀ (q : MetricsPackage) (k : String),
      k ∈ (l.foldl cleanUpKey q).registeredCertificates
        ↔ (k ∈ q.registeredCertificates
            ∧ ¬ (k ∈ l ∧ (SplitMetaNamespaceKey k).isSome = true)) := by
  induction l with
  | nil => intro q k; simp
  | cons a rest ih =>
    intro q k
    rw [List.foldl_cons, ih, cleanUpKey_registered]
    simp only [List.mem_cons]
    tauto

theorem cleanUpKey_gauge (q : MetricsPackage) (a : String) (labels : ExpiryLabels) :
    (cleanUpKey q a).CertificateExpiryTimeSeconds labels
      = if SplitMetaNamespaceKey a = some (labels.Namespace, labels.Name) then none
        else q.CertificateExpiryTimeSeconds labels := by
  unfold cleanUpKey
  cases hs : SplitMetaNamespaceKey a with
  | none => simp
  | some pair =>
    obtain ⟨ns, name⟩ := pair
    obtain ⟨ln, lns⟩ := labels
    simp only [GaugeVec.Delete, ExpiryLabels.mk.injEq, Option.some.injEq, Prod.mk.injEq]
    by_cases h : ln = name ∧ lns = ns
    · rw [if_pos h, if_pos ⟨h.2.symm, h.1.symm⟩]
    · rw [if_neg h, if_neg (fun h2 => h ⟨h2.2.symm, h2.1.symm⟩)]

theorem foldl_cleanUpKey_gauge (l : List String) :
    ∀ (q : MetricsPackage) (labels : ExpiryLabels),
      (l.foldl cleanUpKey q).CertificateExpiryTimeSeconds labels
        = if (∃ k ∈ l, SplitMetaNamespaceKey k = some (labels.Namespace, labels.Name)) then none
          else q.CertificateExpiryTimeSeconds labels := by
  induction l with
  | nil => intro q labels; simp
  | cons a rest ih =>
    intro q labels
    rw [List.foldl_cons, ih, cleanUpKey_gauge]
    by_cases h1 : ∃ k ∈ rest, SplitMetaNamespaceKey k = some (labels.Namespace, labels.Name)
    · have h2 : ∃ k ∈ a :: rest,
          SplitMetaNamespaceKey k = some (labels.Namespace, labels.Name) := by
        obtain ⟨k, hk, hs⟩ := h1
        exact ⟨k, List.mem_cons_of_mem _ hk, hs⟩
      rw [if_pos h1, if_pos h2]
    · rw [if_neg h1]
      by_cases h3 : SplitMetaNamespaceKey a = some (labels.Namespace, labels.Name)
      · rw [if_pos h3, if_pos ⟨a, List.mem_cons_self _ _, h3⟩]
      · rw [if_neg h3, if_neg]
        rintro ⟨k, hk, hs⟩
        rcases List.mem_cons.mp hk with rfl | hk
        · exact h3 hs
        · exact h1 ⟨k, hk, hs⟩

theorem foldl_cleanUpKey_activeCertificates (l : List String) :
    ∀ q : MetricsPackage,
      (l.foldl cleanUpKey q).activeCertificates = q.activeCertificates := by
  induction l with
  | nil => intro q; rfl
  | cons a rest ih =>
    intro q
    rw [List.foldl_cons, ih]
    unfold cleanUpKey
    split <;> rfl

theorem updateX509Expiry_registered (crt : Certificate) (cert : X509Certificate)
    (p : MetricsPackage) (k : String) :
    k ∈ (updateX509Expiry crt cert p).registeredCertificates
      ↔ (k = namespaceKey crt.Namespace crt.Name ∨ k ∈ p.registeredCertificates) := by
  unfold updateX509Expiry
  simp only [DeletionHandlingMetaNamespaceKeyFunc_eq]
  by_cases h : namespaceKey crt.Namespace crt.Name ∈ p.registeredCertificates
  · simp only [if_pos h]
    constructor
    · intro hk; exact Or.inr hk
    · rintro (rfl | hk)
      · exact h
      · exact hk
  · simp only [if_neg h, List.mem_cons]

theorem updateX509Expiry_gauge (crt : Certificate) (cert : X509Certificate)
    (p : MetricsPackage) (labels : ExpiryLabels) :
    (updateX509Expiry crt cert p).CertificateExpiryTimeSeconds labels
      = if labels = ⟨crt.Name, crt.Namespace⟩ then some cert.NotAfter.Unix
        else p.CertificateExpiryTimeSeconds labels := by
  unfold updateX509Expiry
  simp only [DeletionHandlingMetaNamespaceKeyFunc_eq, GaugeVec.Set]

theorem metricsConsistent_updateX509Expiry (crt : Certificate) (cert : X509Certificate)
    (p : MetricsPackage) (hp : metricsConsistent p)
    (h1 : slashFree crt.Namespace) (h2 : slashFree crt.Name) :
    metricsConsistent (updateX509Expiry crt cert p) := by
  obtain ⟨hreg, hgauge⟩ := hp
  constructor
  · intro key hkey
    rw [updateX509Expiry_registered] at hkey
    rcases hkey with rfl | hkey
    · refine ⟨crt.Namespace, crt.Name, h1, h2, rfl, ?_⟩
      rw [updateX509Expiry_gauge, if_pos rfl]
      rfl
    · obtain ⟨ns, name, hns, hname, hk, hg⟩ := hreg key hkey
      refine ⟨ns, name, hns, hname, hk, ?_⟩
      rw [updateX509Expiry_gauge]
      split
      · rfl
      · exact hg
  · intro labels hl
    rw [updateX509Expiry_gauge] at hl
    rw [updateX509Expiry_registered]
    by_cases h : labels = ⟨crt.Name, crt.Namespace⟩
    · subst h
      exact ⟨h1, h2, Or.inl rfl⟩
    · rw [if_neg h] at hl
      obtain ⟨a, b, c⟩ := hgauge labels hl
      exact ⟨a, b, Or.inr c⟩

theorem metricsConsistent_cleanUpCertificates (activeCrts : List Certificate)
    (p : MetricsPackage) (hp : metricsConsistent p) :
    metricsConsistent (cleanUpCertificates activeCrts p) := by
  obtain ⟨hreg, hgauge⟩ := hp
  rw [cleanUpCertificates_eq_foldl]
  constructor
  · intro key hkey
    rw [foldl_cleanUpKey_registered] at hkey
    obtain ⟨hk1, hk2⟩ := hkey
    obtain ⟨ns, name, hns, hname, hk, hg⟩ := hreg key hk1
    refine ⟨ns, name, hns, hname, hk, ?_⟩
    rw [foldl_cleanUpKey_gauge, if_neg]
    · exact hg
    · rintro ⟨k, hkmem, hsplit⟩
      have hkreg : k ∈ p.registeredCertificates := (List.mem_filter.mp hkmem).1
      obtain ⟨ns2, name2, hns2, hname2, hk2eq, _⟩ := hreg k hkreg
      rw [hk2eq, SplitMetaNamespaceKey_namespaceKey ns2 name2 hns2 hname2] at hsplit
      simp only [Option.some.injEq, Prod.mk.injEq] at hsplit
      obtain ⟨e1, e2⟩ := hsplit
      subst e1 e2
      apply hk2
      rw [hk, ← hk2eq]
      refine ⟨hkmem, ?_⟩
      rw [hk2eq, SplitMetaNamespaceKey_namespaceKey ns2 name2 hns2 hname2]
      rfl
  · intro labels hl
    rw [foldl_cleanUpKey_gauge] at hl
    by_cases hex : ∃ k ∈ List.filter (fun key =>
        decide (key ∉ activeCrts.map (fun crt => namespaceKey crt.Namespace crt.Name)))
        p.registeredCertificates,
        SplitMetaNamespaceKey k = some (labels.Namespace, labels.Name)
    · rw [if_pos hex] at hl
      simp at hl
    · rw [if_neg hex] at hl
      obtain ⟨a, b, c⟩ := hgauge labels hl
      refine ⟨a, b, ?_⟩
      rw [foldl_cleanUpKey_registered]
      refine ⟨c, ?_⟩
      rintro ⟨hmem, _⟩
      exact hex ⟨_, hmem, SplitMetaNamespaceKey_namespaceKey _ _ a b⟩

theorem metricsConsistent_step (st : Metrics × MetricsPackage) (call : MetricsCall)
    (hp : metricsConsistent st.2) (hcall : call.slashFree) :
    metricsConsistent (metricsStep st call).2 := by
  cases call with
  | updateX509Expiry crt cert =>
    exact metricsConsistent_updateX509Expiry crt cert st.2 hp hcall.1 hcall.2
  | SetActiveCertificates cl => exact hp
  | cleanUp =>
    simp only [metricsStep, cleanUp]
    split
    · exact hp
    · split
      · exact hp
      · exact metricsConsistent_cleanUpCertificates _ _ hp
  | cleanUpCertificates activeCrts =>
    exact metricsConsistent_cleanUpCertificates _ _ hp

theorem metricsConsistent_foldl (calls : List MetricsCall) :
    ∀ st : Metrics × MetricsPackage, metricsConsistent st.2 →
      (∀ call ∈ calls, call.slashFree) →
      metricsConsistent (calls.foldl metricsStep st).2 := by
  induction calls with
  | nil => intro st h _; exact h
  | cons call rest ih =>
    intro st h hv
    rw [List.foldl_cons]
    exact ih _ (metricsConsistent_step st call h (hv call (List.mem_cons_self _ _)))
      (fun c hc => hv c (List.mem_cons_of_mem _ hc))

theorem metricsConsistent_initial : metricsConsistent MetricsPackage.initial := by
  constructor
  · intro key hkey
    simp [MetricsPackage.initial] at hkey
  · intro labels hl
    simp [MetricsPackage.initial] at hl

/-- C25, as stated, fails for names with a slash: the Certificate `/foo` with
an empty namespace is registered under the key `/foo`, which splits into the
empty namespace and the name `foo`.  When it is cleaned up while the
Certificate `foo` is active, the gauge of `foo` is deleted although the key
`foo` stays registered, and the gauge of `/foo` stays although its key is
removed. -/
theorem cleanUpCertificates_slash_name_breaks_gauges :
    "foo" ∈ (metricsAfter [.updateX509Expiry (crtNamed "" "foo") (certValid 0 Day),
        .updateX509Expiry (crtNamed "" "/foo") (certValid 0 Day)]).2.registeredCertificates
      ∧ (metricsAfter [.updateX509Expiry (crtNamed "" "foo") (certValid 0 Day),
        .updateX509Expiry (crtNamed "" "/foo") (certValid 0 Day)]).2.CertificateExpiryTimeSeconds
          ⟨"foo", ""⟩ = some 86400
      ∧ "foo" ∈ (metricsAfter [.updateX509Expiry (crtNamed "" "foo") (certValid 0 Day),
        .updateX509Expiry (crtNamed "" "/foo") (certValid 0 Day),
        .cleanUpCertificates [crtNamed "" "foo"]]).2.registeredCertificates
      ∧ (metricsAfter [.updateX509Expiry (crtNamed "" "foo") (certValid 0 Day),
        .updateX509Expiry (crtNamed "" "/foo") (certValid 0 Day),
        .cleanUpCertificates [crtNamed "" "foo"]]).2.CertificateExpiryTimeSeconds
          ⟨"foo", ""⟩ = none
      ∧ "/foo" ∉ (metricsAfter [.updateX509Expiry (crtNamed "" "foo") (certValid 0 Day),
        .updateX509Expiry (crtNamed "" "/foo") (certValid 0 Day),
        .cleanUpCertificates [crtNamed "" "foo"]]).2.registeredCertificates
      ∧ (metricsAfter [.updateX509Expiry (crtNamed "" "foo") (certValid 0 Day),
        .updateX509Expiry (crtNamed "" "/foo") (certValid 0 Day),
        .cleanUpCertificates [crtNamed "" "foo"]]).2.CertificateExpiryTimeSeconds
          ⟨"/foo", ""⟩ = some 86400 := by
  decide

/-- C25, amended: as long as every Certificate handed to `updateX509Expiry` has
a namespace and a name without slash, the registered keys are exactly the
keys of the certificates that have an expiry gauge.  `updateX509Expiry`
records the key of the Certificate and sets its gauge to the `NotAfter` of the
certificate as Unix seconds; after `cleanUpCertificates` every registered key
that is absent from the active list has been removed together with its gauge,
and every registered key present in the active list stays registered with its
gauge unchanged. -/
theorem registeredCertificates_match_gauges (calls : List MetricsCall)
    (hvalid : ∀ call ∈ calls, call.slashFree) :
    metricsConsistent (metricsAfter calls).2
      ∧ (∀ (crt : Certificate) (cert : X509Certificate),
          DeletionHandlingMetaNamespaceKeyFunc crt
              = .ok (namespaceKey crt.Namespace crt.Name)
            ∧ namespaceKey crt.Namespace crt.Name
              ∈ (updateX509Expiry crt cert (metricsAfter calls).2).registeredCertificates
            ∧ (updateX509Expiry crt cert (metricsAfter calls).2).CertificateExpiryTimeSeconds
                ⟨crt.Name, crt.Namespace⟩ = some cert.NotAfter.Unix)
      ∧ (∀ (activeCrts : List Certificate) (key : String),
          key ∈ (metricsAfter calls).2.registeredCertificates →
          (∀ crt ∈ activeCrts, DeletionHandlingMetaNamespaceKeyFunc crt ≠ .ok key) →
          ∃ ns name : String, SplitMetaNamespaceKey key = some (ns, name)
            ∧ ((metricsAfter calls).2.CertificateExpiryTimeSeconds ⟨name, ns⟩).isSome = true
            ∧ key ∉ (cleanUpCertificates activeCrts (metricsAfter calls).2).registeredCertificates
            ∧ (cleanUpCertificates activeCrts (metricsAfter calls).2).CertificateExpiryTimeSeconds
                ⟨name, ns⟩ = none)
      ∧ (∀ (activeCrts : List Certificate) (key : String),
          key ∈ (metricsAfter calls).2.registeredCertificates →
          (∃ crt ∈ activeCrts, DeletionHandlingMetaNamespaceKeyFunc crt = .ok key) →
          ∃ ns name : String, SplitMetaNamespaceKey key = some (ns, name)
            ∧ ((metricsAfter calls).2.CertificateExpiryTimeSeconds ⟨name, ns⟩).isSome = true
            ∧ key ∈ (cleanUpCertificates activeCrts (metricsAfter calls).2).registeredCertificates
            ∧ (cleanUpCertificates activeCrts (metricsAfter calls).2).CertificateExpiryTimeSeconds
                ⟨name, ns⟩
              = (metricsAfter calls).2.CertificateExpiryTimeSeconds ⟨name, ns⟩) := by
  have hcons : metricsConsistent (metricsAfter calls).2 :=
    metricsConsistent_foldl calls _ metricsConsistent_initial hvalid
  refine ⟨hcons, ?_, ?_, ?_⟩
  · intro crt cert
    refine ⟨DeletionHandlingMetaNamespaceKeyFunc_eq crt, ?_, ?_⟩
    · rw [updateX509Expiry_registered]; exact Or.inl rfl
    · rw [updateX509Expiry_gauge, if_pos rfl]
  · intro activeCrts key hkey habsent
    obtain ⟨ns, name, hns, hname, hk, hg⟩ := hcons.1 key hkey
    have hsplit : SplitMetaNamespaceKey key = some (ns, name) := by
      rw [hk]; exact SplitMetaNamespaceKey_namespaceKey ns name hns hname
    have hnot : key ∉ activeCrts.map (fun crt => namespaceKey crt.Namespace crt.Name) := by
      rw [mem_activeKeys_iff]
      rintro ⟨crt, hcrt, heq⟩
      exact habsent crt hcrt heq
    have hclean : key ∈ List.filter (fun key =>
        decide (key ∉ activeCrts.map (fun crt => namespaceKey crt.Namespace crt.Name)))
        (metricsAfter calls).2.registeredCertificates := by
      rw [List.mem_filter]
      exact ⟨hkey, by simpa using hnot⟩
    refine ⟨ns, name, hsplit, hg, ?_, ?_⟩
    · rw [cleanUpCertificates_eq_foldl, foldl_cleanUpKey_registered]
      rintro ⟨_, h2⟩
      exact h2 ⟨hclean, by rw [hsplit]; rfl⟩
    · rw [cleanUpCertificates_eq_foldl, foldl_cleanUpKey_gauge, if_pos ⟨key, hclean, hsplit⟩]
  · intro activeCrts key hkey hpresent
    obtain ⟨ns, name, hns, hname, hk, hg⟩ := hcons.1 key hkey
    have hsplit : SplitMetaNamespaceKey key = some (ns, name) := by
      rw [hk]; exact SplitMetaNamespaceKey_namespaceKey ns name hns hname
    have hin : key ∈ activeCrts.map (fun crt => namespaceKey crt.Namespace crt.Name) := by
      rw [mem_activeKeys_iff]; exact hpresent
    have hnotclean : key ∉ List.filter (fun key =>
        decide (key ∉ activeCrts.map (fun crt => namespaceKey crt.Namespace crt.Name)))
        (metricsAfter calls).2.registeredCertificates := by
      rw [List.mem_filter]
      rintro ⟨_, h2⟩
      simp only [decide_eq_true_eq] at h2
      exact h2 hin
    refine ⟨ns, name, hsplit, hg, ?_, ?_⟩
    · rw [cleanUpCertificates_eq_foldl, foldl_cleanUpKey_registered]
      exact ⟨hkey, fun h => hnotclean h.1⟩
    · rw [cleanUpCertificates_eq_foldl, foldl_cleanUpKey_gauge, if_neg]
      rintro ⟨k, hkmem, hksplit⟩
      have hkreg : k ∈ (metricsAfter calls).2.registeredCertificates :=
        (List.mem_filter.mp hkmem).1
      obtain ⟨ns2, name2, hns2, hname2, hk2, _⟩ := hcons.1 k hkreg
      rw [hk2, SplitMetaNamespaceKey_namespaceKey ns2 name2 hns2 hname2] at hksplit
      simp only [Option.some.injEq, Prod.mk.injEq] at hksplit
      obtain ⟨e1, e2⟩ := hksplit
      subst e1 e2
      apply hnotclean
      rw [hk, ← hk2]
      exact hkmem

/-- Witness of C25 (amended): two certificates of the namespace `default` are
recorded and one of them is cleaned up. -/
theorem registeredCertificates_match_gauges_witness :
    metricsConsistent (metricsAfter [.updateX509Expiry (crtNamed "default" "a") (certValid 0 Day),
        .updateX509Expiry (crtNamed "default" "b") (certValid 0 Day),
        .cleanUpCertificates [crtNamed "default" "a"]]).2
      ∧ (metricsAfter [.updateX509Expiry (crtNamed "default" "a") (certValid 0 Day),
        .updateX509Expiry (crtNamed "default" "b") (certValid 0 Day),
        .cleanUpCertificates [crtNamed "default" "a"]]).2.registeredCertificates
          = ["default/a"]
      ∧ (metricsAfter [.updateX509Expiry (crtNamed "default" "a") (certValid 0 Day),
        .updateX509Expiry (crtNamed "default" "b") (certValid 0 Day),
        .cleanUpCertificates [crtNamed "default" "a"]]).2.CertificateExpiryTimeSeconds
          ⟨"a", "default"⟩ = some 86400
      ∧ (metricsAfter [.updateX509Expiry (crtNamed "default" "a") (certValid 0 Day),
        .updateX509Expiry (crtNamed "default" "b") (certValid 0 Day),
        .cleanUpCertificates [crtNamed "default" "a"]]).2.CertificateExpiryTimeSeconds
          ⟨"b", "default"⟩ = none :=
  ⟨(registeredCertificates_match_gauges
      [.updateX509Expiry (crtNamed "default" "a") (certValid 0 Day),
        .updateX509Expiry (crtNamed "default" "b") (certValid 0 Day),
        .cleanUpCertificates [crtNamed "default" "a"]] (by decide)).1,
   by decide, by decide, by decide⟩

/-- C26: `SetActiveCertificates` stores the lister in the field of the `Metrics`
value, while `cleanUp` tests and lists the package variable
`activeCertificates`, which no function of the package assigns.  So after
`SetActiveCertificates` with a lister whose `List` succeeds, `cleanUp` changes
nothing: a registered key that is missing from the list of the lister stays
registered, with its gauge. -/
theorem cleanUp_ignores_SetActiveCertificates :
    (∀ calls : List MetricsCall, (metricsAfter calls).2.activeCertificates = none)
      ∧ (∀ (calls : List MetricsCall) (cl : CertificateLister),
          (metricsAfter (calls ++ [.SetActiveCertificates cl, .cleanUp])).2.registeredCertificates
            = (metricsAfter calls).2.registeredCertificates
          ∧ (metricsAfter (calls ++ [.SetActiveCertificates cl, .cleanUp])).2.CertificateExpiryTimeSeconds
            = (metricsAfter calls).2.CertificateExpiryTimeSeconds)
      ∧ (metricsAfter [.updateX509Expiry (crtNamed "default" "example") (certValid 0 Day),
          .SetActiveCertificates emptyLister]).1.activeCertificates.isSome = true
      ∧ "default/example" ∈ (metricsAfter
          [.updateX509Expiry (crtNamed "default" "example") (certValid 0 Day),
           .SetActiveCertificates emptyLister, .cleanUp]).2.registeredCertificates
      ∧ (metricsAfter
          [.updateX509Expiry (crtNamed "default" "example") (certValid 0 Day),
           .SetActiveCertificates emptyLister, .cleanUp]).2.CertificateExpiryTimeSeconds
            ⟨"example", "default"⟩ = some 86400
      ∧ "default/example" ∉ (cleanUpCertificates []
          (metricsAfter [.updateX509Expiry (crtNamed "default" "example")
            (certValid 0 Day)]).2).registeredCertificates := by
  have hnone : ∀ (calls : List MetricsCall) (st : Metrics × MetricsPackage),
      st.2.activeCertificates = none →
      (calls.foldl metricsStep st).2.activeCertificates = none := by
    intro calls
    induction calls with
    | nil => intro st h; exact h
    | cons call rest ih =>
      intro st h
      rw [List.foldl_cons]
      apply ih
      cases call with
      | updateX509Expiry crt cert =>
        simp only [metricsStep, updateX509Expiry, DeletionHandlingMetaNamespaceKeyFunc_eq]
        exact h
      | SetActiveCertificates cl => exact h
      | cleanUp =>
        simp only [metricsStep, cleanUp, h]
      | cleanUpCertificates activeCrts =>
        simp only [metricsStep]
        rw [cleanUpCertificates_eq_foldl, foldl_cleanUpKey_activeCertificates]
        exact h
  have hall : ∀ calls : List MetricsCall, (metricsAfter calls).2.activeCertificates = none :=
    fun calls => hnone calls _ rfl
  refine ⟨hall, ?_, by decide, by decide, by decide, by decide⟩
  intro calls cl
  have h := hall calls
  unfold metricsAfter at h ⊢
  rw [List.foldl_append]
  simp only [List.foldl_cons, List.foldl_nil, metricsStep, cleanUp, h, and_self]

end CertManager
